import Mathlib

/-!
# Admission conversion workflow

A shallow embedding of `backend/controllers/admission.controller.js`
(`processAdmission`, `createAdmission`, `updateAdmission`, `deleteAdmission`)
and of the `pre('save')` hooks of `backend/models/Admission.js` and
`backend/models/Fee.js`.

The document store behind the Mongoose models is an explicit value `Db`:
three collections, a counter that hands out fresh `_id`s, and the list of
store calls `processAdmission` has made.  The courses, which the handlers only
read, are a separate list.

The controller and the schemas under `backend/models` do not name the same
paths.  A document (`Admission`) carries the paths the controller reads and
writes, each with the value the read yields; the schema is strict, so a path
it does not declare (`applicantDetails`, `contactDetails`,
`interviewDetails`) reads `undefined` on every document the model hands over.
`StoredAdmission` is an application with the paths the schema declares, and
`hydrate` is the document the controller gets for it.

A call that writes either stores the document or throws, and the `catch`
branch of the handler answers 500.  Whether a document passes the validation
that precedes the write is an acceptance predicate of `Env` and `WriteEnv`;
validation comes before the pre-save hook.  `schemaStore` is the store with
the validators the schemas of the repository declare.  An `_id` is a natural
number; an id as a request carries it, which may be no ObjectId at all, is a
`RequestId`, and the handlers on such ids are `processAdmissionRequest`,
`createAdmissionRequest` and `updateAdmissionRequest`.

The later sections embed, in the same way, the role middleware of
`backend/middleware/auth.js`, the total of `getAdmissionStats`, the pre-save
hooks of `backend/models/Exam.js` and `backend/models/Hostel.js`, and the
handlers `addExamResults`, `assignRoom`, `createFee` and
`getStudentFeeSummary`.  Amounts are integers and capacities are natural
numbers.  Marks are exact rational numbers, where the code computes in binary
floating point.
-/

namespace Erp

/-! ## Values of a request body -/

/-- A JSON value as the controller sees it in `req.body`; the content of an
object is kept as an uninterpreted payload. -/
inductive JsVal where
  | undefined
  | null
  | bool (b : Bool)
  | num (n : Int)
  | str (s : String)
  | obj (payload : String)
  deriving DecidableEq, Repr

/-- JavaScript truthiness, as used by `if (remarks)`, `if (admissionFee)`. -/
def JsVal.truthy : JsVal → Bool
  | .undefined => false
  | .null => false
  | .bool b => b
  | .num n => n != 0
  | .str s => s != ""
  | .obj _ => true

/-- Truthiness of an optional string field (`undefined` and `''` are falsy). -/
def strTruthy : Option String → Bool
  | none => false
  | some s => s != ""

/-! ## Documents -/

/-- The `applicantDetails` sub-document of an application. -/
structure ApplicantDetails where
  firstName : String
  lastName : String
  dateOfBirth : String
  gender : String
  bloodGroup : Option String
  deriving DecidableEq, Repr

/-- The `contactDetails` sub-document of an application. -/
structure ContactDetails where
  email : Option String
  phoneNumber : Option String
  deriving DecidableEq, Repr

/-- An admission document as the controller handles it: the paths
`processAdmission` and the pre-save hook read or write, each with the value
the read yields. `applicantDetails`, `contactDetails` and `interviewDetails`
are read by the controller and are not declared by `models/Admission.js`; on a
document the model hands over they read `undefined` (`none`, `.undefined`), see
`hydrate`. A value other than that stands for a document that did not come
through the model. -/
structure Admission where
  _id : Nat
  applicationNumber : Option String
  applicantDetails : Option ApplicantDetails
  contactDetails : Option ContactDetails
  address : String
  guardianDetails : String
  appliedCourse : Nat
  academicYear : String
  previousEducation : List String
  documents : List String
  status : String
  remarks : JsVal
  interviewDetails : JsVal
  admissionFee : JsVal
  student : Option Nat
  deriving DecidableEq, Repr

/-- The object literal handed to `User.create` (controller lines 246-252). -/
structure UserInput where
  name : String
  email : String
  password : String
  role : String
  contactNumber : Option String
  deriving DecidableEq, Repr

/-- Modelled from the spec: `backend/models/User.js` is not part of the
sources; an Account is stored with the identity fields, credential, role and
contact number it was created with, under a fresh identifier. -/
structure User where
  _id : Nat
  name : String
  email : String
  password : String
  role : String
  contactNumber : Option String
  deriving DecidableEq, Repr

/-- The `personalDetails` object built at controller lines 258-264. -/
structure PersonalDetails where
  firstName : String
  lastName : String
  dateOfBirth : String
  gender : String
  bloodGroup : Option String
  deriving DecidableEq, Repr

/-- The object literal handed to `Student.create` (controller lines 257-274). -/
structure StudentDoc where
  personalDetails : PersonalDetails
  contactDetails : Option ContactDetails
  address : String
  guardianDetails : String
  course : Nat
  batch : String
  previousEducation : List String
  documents : List String
  user : Option Nat
  status : String
  deriving DecidableEq, Repr

/-- A stored student record: the created document under its `_id`. -/
structure Student where
  _id : Nat
  doc : StudentDoc
  deriving DecidableEq, Repr

/-! ## The store -/

/-- The calls `processAdmission` makes on the models. -/
inductive StoreCall where
  | admissionFindById (id : Nat)
  | userFindOne (email : String)
  | userCreate (input : UserInput)
  | studentCreate (doc : StudentDoc)
  | admissionSave (id : Nat)
  deriving DecidableEq, Repr

/-- The persisted collections, the next fresh `_id`, and the calls made. -/
structure Db where
  admissions : List Admission
  students : List Student
  users : List User
  nextId : Nat
  calls : List StoreCall
  deriving DecidableEq, Repr

/-- What the controller does not decide: the current year and whether a
document passes the validation of the call that writes it (`User.create`,
`Student.create`, `admission.save()`); a document that does not pass makes the
call throw. -/
structure Env where
  year : Nat
  userCreateOk : UserInput → Bool
  studentCreateOk : StudentDoc → Bool
  admissionSaveOk : Admission → Bool

/-- Record a store call. -/
def Db.logged (db : Db) (c : StoreCall) : Db :=
  { db with calls := db.calls ++ [c] }

/-- The lookup `Admission.findById(id)` for an id that is a well-formed
ObjectId, here a natural number. A `req.params.id` that is no ObjectId never
reaches the collection: the cast throws, see `processAdmissionRequest`. -/
def findAdmission (db : Db) (id : Nat) : Option Admission :=
  db.admissions.find? (fun a => a._id == id)

/-- The lookup `User.findOne({ email })`: the first account with exactly this email. -/
def findUserByEmail (db : Db) (email : String) : Option User :=
  db.users.find? (fun u => u.email == email)

/-! ## The pre-save hook of `models/Admission.js` -/

/-- The call `s.substr(-2)`: the last two characters of `s` (all of `s` if shorter). -/
def substrLast2 (s : String) : String :=
  String.mk (s.data.drop (s.length - 2))

/-- The call `s.padStart(n, c)` for a one-character pad string. -/
def padStart (s : String) (n : Nat) (c : Char) : String :=
  String.mk (List.replicate (n - s.length) c) ++ s

/-- The string the hook builds at `Admission.js` lines 125-127. -/
def generateApplicationNumber (fullYear count : Nat) : String :=
  let year := substrLast2 (toString fullYear)
  "ADM-" ++ year ++ "-" ++ padStart (toString (count + 1)) 4 '0'

/-- The hook `AdmissionSchema.pre('save')`: `fullYear` is `new Date().getFullYear()`
and `count` is `countDocuments()`. -/
def preSave (fullYear count : Nat) (a : Admission) : Admission :=
  if !strTruthy a.applicationNumber then
    { a with applicationNumber := some (generateApplicationNumber fullYear count) }
  else a

/-- The call `admission.save()`. Mongoose validates the document first, as it
is handed over, and `env.admissionSaveOk` is that validation; a document that
fails it makes the call throw (`none`) before any hook runs. Then the
`pre('save')` hook runs, and the document is written over the stored one with
the same `_id`. -/
def saveAdmission (env : Env) (db : Db) (a : Admission) : Db × Option Admission :=
  let db1 := db.logged (.admissionSave a._id)
  if env.admissionSaveOk a then
    let a1 := preSave env.year db.admissions.length a
    ({ db1 with admissions := db1.admissions.map (fun x => if x._id == a1._id then a1 else x) },
      some a1)
  else (db1, none)

/-! ## `processAdmission` -/

/-- The body of `PUT /api/admissions/:id/process`. -/
structure ProcessBody where
  status : JsVal
  remarks : JsVal
  interviewDetails : JsVal
  admissionFee : JsVal
  deriving DecidableEq, Repr

/-- The HTTP response: status code and the `data` field when there is one. -/
structure Response where
  code : Nat
  data : Option Admission
  deriving DecidableEq, Repr

/-- The statuses the endpoint accepts (controller line 214). -/
def acceptedStatuses : List String :=
  ["approved", "rejected", "pending", "interview_scheduled"]

/-- The test `[...].includes(status)`: the status as a string when it is one
of the accepted ones. -/
def acceptedStatus (v : JsVal) : Option String :=
  match v with
  | .str s => if s ∈ acceptedStatuses then some s else none
  | _ => none

/-- The applicant email when `admission.contactDetails &&
admission.contactDetails.email` is truthy. -/
def applicantEmail (a : Admission) : Option String :=
  match a.contactDetails with
  | none => none
  | some c => if strTruthy c.email then c.email else none

/-- The argument of `User.create` (lines 246-252). -/
def newUserInput (ad : ApplicantDetails) (email : String) (c : Option ContactDetails) :
    UserInput :=
  { name := ad.firstName ++ " " ++ ad.lastName
    email := email
    password := "password123"
    role := "student"
    contactNumber := c.bind (fun x => x.phoneNumber) }

/-- The account `User.create` stores for `input`, under the fresh `_id`. -/
def createdUser (id : Nat) (input : UserInput) : User :=
  { _id := id
    name := input.name
    email := input.email
    password := input.password
    role := input.role
    contactNumber := input.contactNumber }

/-- Lines 239-254: find or create the account. The outer `none` is a thrown
error (reading `applicantDetails.firstName` of a missing sub-document, or a
rejected `User.create`); `some none` is `user = null`. -/
def resolveUser (env : Env) (db : Db) (a : Admission) : Db × Option (Option User) :=
  match applicantEmail a with
  | none => (db, some none)
  | some email =>
    let db1 := db.logged (.userFindOne email)
    match findUserByEmail db1 email with
    | some u => (db1, some (some u))
    | none =>
      match a.applicantDetails with
      | none => (db1, none)
      | some ad =>
        let input := newUserInput ad email a.contactDetails
        let db2 := db1.logged (.userCreate input)
        if env.userCreateOk input then
          let u := createdUser db2.nextId input
          ({ db2 with users := db2.users ++ [u], nextId := db2.nextId + 1 }, some (some u))
        else (db2, none)

/-- The argument of `Student.create` (lines 257-274). -/
def newStudentDoc (a : Admission) (ad : ApplicantDetails) (user : Option User) : StudentDoc :=
  { personalDetails :=
      { firstName := ad.firstName, lastName := ad.lastName, dateOfBirth := ad.dateOfBirth,
        gender := ad.gender, bloodGroup := ad.bloodGroup }
    contactDetails := a.contactDetails
    address := a.address
    guardianDetails := a.guardianDetails
    course := a.appliedCourse
    batch := a.academicYear
    previousEducation := a.previousEducation
    documents := a.documents
    user := user.map (fun u => u._id)
    status := "active" }

/-- Lines 256-274: create the student record; `none` is a thrown error. -/
def createStudent (env : Env) (db : Db) (a : Admission) (user : Option User) :
    Db × Option Student :=
  match a.applicantDetails with
  | none => (db, none)
  | some ad =>
    let doc := newStudentDoc a ad user
    let db1 := db.logged (.studentCreate doc)
    if env.studentCreateOk doc then
      let s : Student := { _id := db1.nextId, doc := doc }
      ({ db1 with students := db1.students ++ [s], nextId := db1.nextId + 1 }, some s)
    else (db1, none)

/-- Lines 237-278: the conversion block; `none` is a thrown error. -/
def convert (env : Env) (db : Db) (a : Admission) : Db × Option Admission :=
  match resolveUser env db a with
  | (db1, none) => (db1, none)
  | (db1, some user) =>
    match createStudent env db1 a user with
    | (db2, none) => (db2, none)
    | (db2, some s) => (db2, some { a with student := some s._id })

/-- Lines 231-234: the assignments made from the request body. -/
def applyBody (a : Admission) (status : String) (body : ProcessBody) : Admission :=
  { a with
    status := status
    remarks := if body.remarks.truthy then body.remarks else a.remarks
    interviewDetails :=
      if body.interviewDetails.truthy then body.interviewDetails else a.interviewDetails
    admissionFee := if body.admissionFee.truthy then body.admissionFee else a.admissionFee }

/-- Lines 280-292: save, then answer 200 with the document, or 500 when the
save threw. -/
def saveAndRespond (env : Env) (db : Db) (a : Admission) : Db × Response :=
  match saveAdmission env db a with
  | (db1, some saved) => (db1, { code := 200, data := some saved })
  | (db1, none) => (db1, { code := 500, data := none })

/-- The handler `processAdmission` (controller lines 210-293) on the
application id `req.params.id` and the body `req.body`. -/
def processAdmission (env : Env) (db : Db) (id : Nat) (body : ProcessBody) : Db × Response :=
  match acceptedStatus body.status with
  | none => (db, { code := 400, data := none })
  | some status =>
    let db0 := db.logged (.admissionFindById id)
    match findAdmission db0 id with
    | none => (db0, { code := 404, data := none })
    | some found =>
      let a := applyBody found status body
      if status == "approved" && a.student.isNone then
        match convert env db0 a with
        | (db1, none) => (db1, { code := 500, data := none })
        | (db1, some linked) => saveAndRespond env db1 linked
      else saveAndRespond env db0 a

/-! ## The application number in the specification's words -/

/-- The decimal digits of `m`, most significant first, as characters. -/
def decimal (m : Nat) : List Char :=
  (Nat.digits 10 m).reverse.map Nat.digitChar

/-- Left-pad `l` with `'0'` to at least `width` characters. -/
def zeroPadded (width : Nat) (l : List Char) : List Char :=
  List.replicate (width - l.length) '0' ++ l

/-- The identifier as the specification words it: `ADM-`, the last two digits
of the year, `-`, and the decimal of `n + 1` left-padded with zeros to at
least four digits. -/
def specApplicationNumber (fullYear n : Nat) : String :=
  "ADM-" ++ String.mk [Nat.digitChar (fullYear / 10 % 10), Nat.digitChar (fullYear % 10)]
    ++ "-" ++ String.mk (zeroPadded 4 (decimal (n + 1)))

/-! ## Concrete stores and requests -/

/-- A store without validators, in the year 2025: it accepts every write.
The models of the repository do validate, see `schemaStore`; this store shows
what the handlers do once a write is accepted. -/
def acceptAll : Env :=
  { year := 2025
    userCreateOk := fun _ => true
    studentCreateOk := fun _ => true
    admissionSaveOk := fun _ => true }

/-- The application of the specification's scenario. -/
def jane : Admission :=
  { _id := 1
    applicationNumber := some "ADM-25-0001"
    applicantDetails := some
      { firstName := "Jane"
        lastName := "Doe"
        dateOfBirth := "2004-03-01"
        gender := "Female"
        bloodGroup := none }
    contactDetails := some { email := some "a@x.com", phoneNumber := some "5550100" }
    address := "1 Main Street"
    guardianDetails := "John Doe"
    appliedCourse := 101
    academicYear := "2025"
    previousEducation := []
    documents := []
    status := "pending"
    remarks := JsVal.undefined
    interviewDetails := JsVal.undefined
    admissionFee := JsVal.undefined
    student := none }

/-- A store holding only Jane's application. -/
def janeDb : Db :=
  { admissions := [jane], students := [], users := [], nextId := 10, calls := [] }

/-- An account that already uses Jane's email. -/
def janeAccount : User :=
  { _id := 4
    name := "J. Doe"
    email := "a@x.com"
    password := "hashed"
    role := "student"
    contactNumber := none }

/-- The student record of an application converted earlier. -/
def janeStudent : Student :=
  { _id := 7
    doc :=
      { personalDetails :=
          { firstName := "Jane"
            lastName := "Doe"
            dateOfBirth := "2004-03-01"
            gender := "Female"
            bloodGroup := none }
        contactDetails := jane.contactDetails
        address := "1 Main Street"
        guardianDetails := "John Doe"
        course := 101
        batch := "2025"
        previousEducation := []
        documents := []
        user := none
        status := "active" } }

/-- Jane's application after an earlier conversion: it references her student
record. -/
def janeConverted : Admission :=
  { jane with status := "approved", student := some 7 }

/-- A store in which Jane's application is already converted. -/
def janeConvertedDb : Db :=
  { admissions := [janeConverted], students := [janeStudent], users := [], nextId := 10,
    calls := [] }

/-- Jane's application before its first save: no application number yet. -/
def janeDraft : Admission :=
  { jane with applicationNumber := none }

/-- A request body carrying only a status. -/
def statusOnly (status : JsVal) : ProcessBody :=
  { status := status
    remarks := JsVal.undefined
    interviewDetails := JsVal.undefined
    admissionFee := JsVal.undefined }

/-! ## The pre-save hook of `models/Fee.js` -/

/-- A fee record, with the fields the pre-save hook reads or writes; amounts
are whole numbers of the currency unit. -/
structure Fee where
  receiptNumber : Option String
  amount : Int
  paidAmount : Option Int
  remainingAmount : Option Int
  deriving DecidableEq, Repr

/-- The string the hook builds at `Fee.js` lines 78-81; `monthIndex` is
`new Date().getMonth()`, from 0 for January to 11 for December. -/
def generateReceiptNumber (fullYear monthIndex count : Nat) : String :=
  let year := substrLast2 (toString fullYear)
  let month := padStart (toString (monthIndex + 1)) 2 '0'
  "FEE-" ++ year ++ month ++ "-" ++ padStart (toString (count + 1)) 4 '0'

/-- The hook `FeeSchema.pre('save')` (`Fee.js` lines 76-90): the receipt
number when there is none, then the remaining amount when `amount` is truthy
and `paidAmount` is defined. -/
def feePreSave (fullYear monthIndex count : Nat) (f : Fee) : Fee :=
  let f1 : Fee :=
    if !strTruthy f.receiptNumber then
      { f with receiptNumber := some (generateReceiptNumber fullYear monthIndex count) }
    else f
  match f1.paidAmount with
  | some paid =>
    if f1.amount != 0 then { f1 with remainingAmount := some (f1.amount - paid) } else f1
  | none => f1

/-- The receipt number in the words of the specification, which gives it the
pattern of the application number: the prefix `FEE`, `-`, the last two digits
of the year, `-`, and `n + 1` left-padded with zeros to at least four
digits. -/
def specReceiptNumber (fullYear n : Nat) : String :=
  "FEE-" ++ String.mk [Nat.digitChar (fullYear / 10 % 10), Nat.digitChar (fullYear % 10)]
    ++ "-" ++ String.mk (zeroPadded 4 (decimal (n + 1)))

/-- The receipt number as the hook composes it, in arithmetic terms: `FEE-`,
the last two digits of the year, the month number on two digits, `-`, and
`n + 1` left-padded with zeros to at least four digits. -/
def datedReceiptNumber (fullYear monthIndex n : Nat) : String :=
  "FEE-" ++ String.mk [Nat.digitChar (fullYear / 10 % 10), Nat.digitChar (fullYear % 10)]
    ++ String.mk (zeroPadded 2 (decimal (monthIndex + 1)))
    ++ "-" ++ String.mk (zeroPadded 4 (decimal (n + 1)))

/-! ## The other admission handlers -/

/-- A stored course, as far as the admission handlers look at it. -/
structure Course where
  _id : Nat
  name : String
  code : String
  deriving DecidableEq, Repr

/-- The lookup `Course.findById(id)` for a well-formed ObjectId; a missing id
(`undefined`) finds nothing. An `appliedCourse` that is no ObjectId makes the
cast throw, see `createAdmissionRequest` and `updateAdmissionRequest`. -/
def findCourse (courses : List Course) (id : Option Nat) : Option Course :=
  match id with
  | none => none
  | some c => courses.find? (fun x => x._id == c)

/-- Whether the store accepts the writes of `updateAdmission` (with
`runValidators`) and of `deleteAdmission`; a rejected write throws. -/
structure WriteEnv where
  admissionUpdateOk : Admission → Bool
  admissionRemoveOk : Admission → Bool

/-- The statuses the Admission schema declares (`Admission.js` line 80). -/
def declaredStatuses : List String :=
  ["Pending", "Under Review", "Approved", "Rejected", "Waitlisted", "Enrolled"]

/-- The body of `POST /api/admissions`: the fields of the application the
request may carry. A `status` of the request is overwritten by the handler
and is not kept here. -/
structure CreateBody where
  applicationNumber : Option String
  applicantDetails : Option ApplicantDetails
  contactDetails : Option ContactDetails
  address : String
  guardianDetails : String
  appliedCourse : Option Nat
  academicYear : String
  previousEducation : List String
  documents : List String
  remarks : JsVal
  interviewDetails : JsVal
  admissionFee : JsVal
  student : Option Nat
  deriving DecidableEq, Repr

/-- The document `Admission.create` is given at controller lines 105-109, under
the fresh `_id`. -/
def newAdmission (id course : Nat) (body : CreateBody) : Admission :=
  { _id := id
    applicationNumber := body.applicationNumber
    applicantDetails := body.applicantDetails
    contactDetails := body.contactDetails
    address := body.address
    guardianDetails := body.guardianDetails
    appliedCourse := course
    academicYear := body.academicYear
    previousEducation := body.previousEducation
    documents := body.documents
    status := "pending"
    remarks := body.remarks
    interviewDetails := body.interviewDetails
    admissionFee := body.admissionFee
    student := body.student }

/-- The handler `createAdmission` (controller lines 93-122): 400 when the
course is not found; otherwise `Admission.create` validates the document
(`env.admissionSaveOk`), and a document that fails makes it throw, answered
with 500, before any hook runs; a valid document goes through the pre-save
hook on the current document count, is stored, and is answered with 201. -/
def createAdmission (env : Env) (courses : List Course) (db : Db) (body : CreateBody) :
    Db × Response :=
  match body.appliedCourse, findCourse courses body.appliedCourse with
  | some c, some _ =>
    let doc := newAdmission db.nextId c body
    if env.admissionSaveOk doc then
      let saved := preSave env.year db.admissions.length doc
      ({ db with admissions := db.admissions ++ [saved], nextId := db.nextId + 1 },
        { code := 201, data := some saved })
    else (db, { code := 500, data := none })
  | _, _ => (db, { code := 400, data := none })

/-- The body of `PUT /api/admissions/:id`: for each field of the application,
the value the request carries, if any. -/
structure UpdateBody where
  applicationNumber : Option String
  applicantDetails : Option ApplicantDetails
  contactDetails : Option ContactDetails
  address : Option String
  guardianDetails : Option String
  appliedCourse : Option Nat
  academicYear : Option String
  previousEducation : Option (List String)
  documents : Option (List String)
  status : Option String
  remarks : Option JsVal
  interviewDetails : Option JsVal
  admissionFee : Option JsVal
  student : Option Nat
  deriving DecidableEq, Repr

/-- The document after `findByIdAndUpdate(id, req.body)`: every field the body
carries is overwritten, the others are kept. -/
def applyUpdate (a : Admission) (body : UpdateBody) : Admission :=
  { _id := a._id
    applicationNumber := body.applicationNumber.orElse (fun _ => a.applicationNumber)
    applicantDetails := body.applicantDetails.orElse (fun _ => a.applicantDetails)
    contactDetails := body.contactDetails.orElse (fun _ => a.contactDetails)
    address := body.address.getD a.address
    guardianDetails := body.guardianDetails.getD a.guardianDetails
    appliedCourse := body.appliedCourse.getD a.appliedCourse
    academicYear := body.academicYear.getD a.academicYear
    previousEducation := body.previousEducation.getD a.previousEducation
    documents := body.documents.getD a.documents
    status := body.status.getD a.status
    remarks := body.remarks.getD a.remarks
    interviewDetails := body.interviewDetails.getD a.interviewDetails
    admissionFee := body.admissionFee.getD a.admissionFee
    student := body.student.orElse (fun _ => a.student) }

/-- The handler `updateAdmission` (controller lines 127-167): 404 when the
application is not found, 400 when the body names a course that is not found,
otherwise the update is written and answered with 200, or 500 when it
threw. -/
def updateAdmission (wenv : WriteEnv) (courses : List Course) (db : Db) (id : Nat)
    (body : UpdateBody) : Db × Response :=
  match findAdmission db id with
  | none => (db, { code := 404, data := none })
  | some found =>
    if body.appliedCourse.isSome && (findCourse courses body.appliedCourse).isNone then
      (db, { code := 400, data := none })
    else
      let updated := applyUpdate found body
      if wenv.admissionUpdateOk updated then
        ({ db with admissions := db.admissions.map (fun x => if x._id == id then updated else x) },
          { code := 200, data := some updated })
      else (db, { code := 500, data := none })

/-- The handler `deleteAdmission` (controller lines 172-205): 404 when the
application is not found, 400 when its status is 'approved' and it has a
student, otherwise it is removed and answered with 200, or 500 when the
removal threw. -/
def deleteAdmission (wenv : WriteEnv) (db : Db) (id : Nat) : Db × Response :=
  match findAdmission db id with
  | none => (db, { code := 404, data := none })
  | some found =>
    if found.status == "approved" && found.student.isSome then
      (db, { code := 400, data := none })
    else if wenv.admissionRemoveOk found then
      ({ db with admissions := db.admissions.filter (fun x => x._id != id) },
        { code := 200, data := none })
    else (db, { code := 500, data := none })

/-! ## Concrete inputs for the other handlers -/

/-- A store for `updateAdmission` and `deleteAdmission` that accepts every
write. -/
def writeAll : WriteEnv :=
  { admissionUpdateOk := fun _ => true
    admissionRemoveOk := fun _ => true }

/-- The course of the specification's scenario. -/
def course101 : Course :=
  { _id := 101, name := "Computer Science", code := "CS101" }

/-- Jane's application as a creation request for the course `c`. -/
def janeCreateBody (c : Nat) : CreateBody :=
  { applicationNumber := none
    applicantDetails := jane.applicantDetails
    contactDetails := jane.contactDetails
    address := jane.address
    guardianDetails := jane.guardianDetails
    appliedCourse := some c
    academicYear := "2025"
    previousEducation := []
    documents := []
    remarks := JsVal.undefined
    interviewDetails := JsVal.undefined
    admissionFee := JsVal.undefined
    student := none }

/-- An update request that carries nothing. -/
def emptyUpdate : UpdateBody :=
  { applicationNumber := none
    applicantDetails := none
    contactDetails := none
    address := none
    guardianDetails := none
    appliedCourse := none
    academicYear := none
    previousEducation := none
    documents := none
    status := none
    remarks := none
    interviewDetails := none
    admissionFee := none
    student := none }

/-- Jane's converted application after its status was set to 'rejected'. -/
def janeConvertedRejected : Admission :=
  { janeConverted with status := "rejected" }

/-- A store holding the converted application with status 'rejected'. -/
def janeConvertedRejectedDb : Db :=
  { janeConvertedDb with admissions := [janeConvertedRejected] }

/-- A fee record before its first save. -/
def draftFee : Fee :=
  { receiptNumber := none, amount := 5000, paidAmount := some 2000, remainingAmount := none }

/-- An update request that carries only a new application number. -/
def renumberUpdate : UpdateBody :=
  { emptyUpdate with applicationNumber := some "ADM-99-0042" }

/-- A request that rejects the application and carries an empty remark and a
fee of 0. -/
def clearingBody : ProcessBody :=
  { status := JsVal.str "rejected"
    remarks := JsVal.str ""
    interviewDetails := JsVal.undefined
    admissionFee := JsVal.num 0 }

/-! ## The role middleware of `middleware/auth.js` -/

/-- One argument of a call of `authorize`: a role name, or an array of role
names. -/
inductive RoleArg where
  | name (role : String)
  | array (roles : List String)
  deriving DecidableEq, Repr

/-- The user `protect` puts on the request, as far as the handlers read
it. -/
structure AuthUser where
  id : Nat
  role : String
  deriving DecidableEq, Repr

/-- What a middleware does with a request: pass it on, or answer with a status
code. -/
inductive Verdict where
  | next
  | respond (code : Nat)
  deriving DecidableEq, Repr

/-- The test `roles.includes(role)` on the rest parameter `roles`: a string is
equal to an element that is the same string, and to no element that is an
array. -/
def rolesInclude (roles : List RoleArg) (role : String) : Bool :=
  roles.any (fun r =>
    match r with
    | .name n => n == role
    | .array _ => false)

/-- The middleware `authorize(...roles)` (`auth.js` lines 39-51); `roles` is
the list of the arguments of the call. -/
def authorize (roles : List RoleArg) (user : Option AuthUser) : Verdict :=
  match user with
  | none => .respond 401
  | some u => if !rolesInclude roles u.role then .respond 403 else .next

/-- The middleware the routers mount for their 'admin and staff' routes:
`authorize(['admin', 'staff'])`, a call with one argument, an array. -/
def adminAndStaff : Option AuthUser → Verdict :=
  authorize [.array ["admin", "staff"]]

/-- The middleware the routers mount for their 'admin only' routes:
`authorize('admin')`. -/
def adminOnly : Option AuthUser → Verdict :=
  authorize [.name "admin"]

/-! ## The statistics of `getAdmissionStats` -/

/-- The entry of `statusCounts` for a status: the number of applications of
the year with that status, and `undefined` when the aggregation has no group
for it. -/
def statusCount (admissions : List Admission) (academicYear status : String) : Option Nat :=
  let n := (admissions.filter (fun a => a.academicYear == academicYear && a.status == status)).length
  if n = 0 then none else some n

/-- The sum `x + y` of two JavaScript values that are a number or `undefined`
or `NaN`: `none` stands for `undefined` on the way in and for `NaN` on the way
out. -/
def jsAdd (x y : Option Nat) : Option Nat :=
  match x, y with
  | some a, some b => some (a + b)
  | _, _ => none

/-- The expression `x || 0` on a count: `undefined`, `NaN` and 0 give 0. -/
def orZero (x : Option Nat) : Nat :=
  x.getD 0

/-- The field `totalApplications` of the answer (controller line 349):
`approved + rejected + pending + (interview_scheduled || 0) || 0`. -/
def totalApplications (admissions : List Admission) (academicYear : String) : Nat :=
  let c := statusCount admissions academicYear
  orZero (jsAdd (jsAdd (jsAdd (c "approved") (c "rejected")) (c "pending"))
    (some (orZero (c "interview_scheduled"))))

/-- The number of applications of the year with the given status, 0 when
there is none. -/
def countWithStatus (admissions : List Admission) (academicYear status : String) : Nat :=
  (admissions.filter (fun a => a.academicYear == academicYear && a.status == status)).length

/-- The sum the specification gives for `totalApplications`. -/
def specTotalApplications (admissions : List Admission) (academicYear : String) : Nat :=
  countWithStatus admissions academicYear "approved"
    + countWithStatus admissions academicYear "rejected"
    + countWithStatus admissions academicYear "pending"
    + countWithStatus admissions academicYear "interview_scheduled"

/-! ## The required paths of the Student schema -/

/-- The paths `models/Student.js` marks `required` (lines 4-67). -/
def studentRequiredPaths : List String :=
  ["registrationNumber", "firstName", "lastName", "dateOfBirth", "gender", "email",
    "contactNumber", "course", "batch"]

/-- The keys of the object literal handed to `Student.create` (controller
lines 257-274), which are the fields of `StudentDoc`. -/
def studentDocKeys : List String :=
  ["personalDetails", "contactDetails", "address", "guardianDetails", "course", "batch",
    "previousEducation", "documents", "user", "status"]

/-- The `required` validators of the Student schema on a document built by the
conversion block: every required path must be a key of the document. -/
def passesRequired (_doc : StudentDoc) : Bool :=
  studentRequiredPaths.all (fun p => studentDocKeys.contains p)

/-- A store whose `Student.create` applies the `required` validators of the
Student schema and which accepts every other write. -/
def requiredChecked : Env :=
  { year := 2025
    userCreateOk := fun _ => true
    studentCreateOk := passesRequired
    admissionSaveOk := fun _ => true }

/-! ## Exams: the pre-save hook of `models/Exam.js` and `addExamResults` -/

/-- One entry of `exam.results`, with the fields the hook and `addExamResults`
read or write: the hook works on `marksObtained`, the controller writes
`marks`. Marks are exact rational numbers. -/
structure ExamResult where
  student : Nat
  marksObtained : Option ℚ
  marks : Option ℚ
  grade : Option String
  status : Option String
  deriving DecidableEq, Repr

/-- An exam, as far as the hook and `addExamResults` look at it. -/
structure Exam where
  _id : Nat
  totalMarks : ℚ
  passingMarks : ℚ
  results : List ExamResult
  deriving DecidableEq, Repr

/-- The grade of `Exam.js` lines 112-129 for `marksObtained` out of
`totalMarks`, with the percentage taken in exact arithmetic. The code computes
the quotient and the product in binary floating point and rounds both, so its
percentage can differ from the exact one in the last place, and a grade read
from this definition is the code's grade only where that rounding does not
cross a threshold. With `totalMarks` 0 the JavaScript quotient is `Infinity`
for positive marks, which passes the first test, and `NaN` or `-Infinity`
otherwise, which passes none. -/
def percentageGrade (marksObtained totalMarks : ℚ) : String :=
  if totalMarks = 0 then
    if 0 < marksObtained then "A+" else "F"
  else
    let percentage := marksObtained / totalMarks * 100
    if percentage ≥ 90 then "A+"
    else if percentage ≥ 80 then "A"
    else if percentage ≥ 70 then "B+"
    else if percentage ≥ 60 then "B"
    else if percentage ≥ 50 then "C"
    else if percentage ≥ 40 then "D"
    else "F"

/-- The body of the `forEach` of the hook (lines 111-137) on one result. -/
def gradeResult (totalMarks passingMarks : ℚ) (r : ExamResult) : ExamResult :=
  match r.marksObtained with
  | some m =>
    if !strTruthy r.grade then
      { r with
        grade := some (percentageGrade m totalMarks)
        status := some (if m ≥ passingMarks then "Pass" else "Fail") }
    else r
  | none => r

/-- The hook `ExamSchema.pre('save')` (lines 108-142); `resultsModified` is
`this.isModified('results')`. -/
def examPreSave (resultsModified : Bool) (e : Exam) : Exam :=
  if resultsModified then
    { e with results := e.results.map (gradeResult e.totalMarks e.passingMarks) }
  else e

/-- One entry of the `results` array of the request of `addExamResults`. -/
structure ResultInput where
  student : Nat
  marks : Option ℚ
  deriving DecidableEq, Repr

/-- Lines 254-272 for one submitted result: the first stored result of the
same student gets the submitted value as its `marks`; when there is none, a
result with `student` and `marks` is appended. -/
def submitResult (results : List ExamResult) (input : ResultInput) : List ExamResult :=
  match results with
  | [] =>
    [{ student := input.student, marksObtained := none, marks := input.marks,
       grade := none, status := none }]
  | r :: rs =>
    if r.student == input.student then { r with marks := input.marks } :: rs
    else r :: submitResult rs input

/-- The handler `addExamResults` (controller lines 221-288) on the stored
exams and the ids of the stored students. `results` is `none` when the body
has no array under that key. The save runs the hook with the results
modified; `examSaveOk` tells whether the store accepts the save. -/
def addExamResults (examSaveOk : Exam → Bool) (studentIds : List Nat) (exams : List Exam)
    (id : Nat) (results : Option (List ResultInput)) : List Exam × Nat :=
  match results with
  | none => (exams, 400)
  | some [] => (exams, 400)
  | some inputs =>
    match exams.find? (fun e => e._id == id) with
    | none => (exams, 404)
    | some exam =>
      let wanted := inputs.map (fun i => i.student)
      if (studentIds.filter (fun s => wanted.contains s)).length != wanted.length then
        (exams, 400)
      else
        let updated := examPreSave true { exam with results := inputs.foldl submitResult exam.results }
        if examSaveOk updated then
          (exams.map (fun e => if e._id == id then updated else e), 200)
        else (exams, 500)

/-- An exam out of 100 with passing marks 40, in which student 7 has a graded
result of 35 marks. -/
def gradedExam : Exam :=
  { _id := 1
    totalMarks := 100
    passingMarks := 40
    results :=
      [{ student := 7, marksObtained := some 35, marks := none, grade := some "F",
         status := some "Fail" }] }

/-! ## Hostels: the pre-save hook of `models/Hostel.js` and `assignRoom` -/

/-- An entry of `room.occupants`. -/
structure Occupant where
  student : Nat
  status : String
  deriving DecidableEq, Repr

/-- A room of a hostel. -/
structure Room where
  roomNumber : String
  capacity : Nat
  occupiedCount : Nat
  occupants : List Occupant
  status : String
  deriving DecidableEq, Repr

/-- A hostel, as far as the hook and `assignRoom` look at it. -/
structure Hostel where
  _id : Nat
  name : String
  occupiedCount : Nat
  rooms : List Room
  deriving DecidableEq, Repr

/-- The number of occupants of the room with status 'Active' (line 108). -/
def activeOccupants (room : Room) : Nat :=
  (room.occupants.filter (fun o => o.status == "Active")).length

/-- The body of the `forEach` of the hook (lines 108-119) on one room. -/
def roomPreSave (room : Room) : Room :=
  { room with
    occupiedCount := activeOccupants room
    status :=
      if activeOccupants room = 0 then "Available"
      else if activeOccupants room < room.capacity then "Partially Occupied"
      else if activeOccupants room = room.capacity then "Fully Occupied"
      else room.status }

/-- The hook `HostelSchema.pre('save')` (lines 103-126); `roomsModified` is
`this.isModified('rooms')`. -/
def hostelPreSave (roomsModified : Bool) (h : Hostel) : Hostel :=
  if roomsModified then
    { h with
      rooms := h.rooms.map roomPreSave
      occupiedCount := (h.rooms.map activeOccupants).sum }
  else h

/-- The student record as `assignRoom` reads and writes it. -/
structure HostelStudent where
  _id : Nat
  hostel : Option Nat
  hostelRoom : Option String
  deriving DecidableEq, Repr

/-- The hostels and the student records `assignRoom` works on. -/
structure HostelDb where
  hostels : List Hostel
  students : List HostelStudent
  deriving DecidableEq, Repr

/-- Whether the store accepts the two saves of `assignRoom`. -/
structure HostelEnv where
  hostelSaveOk : Hostel → Bool
  studentSaveOk : HostelStudent → Bool

/-- Lines 284-294 on the rooms of the hostel: the first room with the room
number gets the new occupant, whose status is the schema's default 'Active',
and its status is set from the new number of occupants. -/
def addOccupant (roomNumber : String) (student : Nat) : List Room → List Room
  | [] => []
  | r :: rs =>
    if r.roomNumber == roomNumber then
      { r with
        occupants := r.occupants ++ [{ student := student, status := "Active" }]
        status :=
          if r.occupants.length + 1 ≥ r.capacity then "full" else "partially_occupied" } :: rs
    else r :: addOccupant roomNumber student rs

/-- The handler `assignRoom` (controller lines 217-320) on the hostel id
`req.params.id` and the body fields `studentId` and `roomNumber`; the answer is
the status code. -/
def assignRoom (henv : HostelEnv) (db : HostelDb) (id : Nat) (studentId : Option Nat)
    (roomNumber : Option String) : HostelDb × Nat :=
  match studentId, roomNumber with
  | some sid, some rn =>
    if rn == "" then (db, 400)
    else
    match db.hostels.find? (fun h => h._id == id) with
    | none => (db, 404)
    | some hostel =>
      match db.students.find? (fun s => s._id == sid) with
      | none => (db, 404)
      | some student =>
        match hostel.rooms.find? (fun r => r.roomNumber == rn) with
        | none => (db, 404)
        | some room =>
          if room.occupants.length ≥ room.capacity then (db, 400)
          else if hostel.rooms.any (fun r => r.occupants.any (fun o => o.student == sid)) then
            (db, 400)
          else if student.hostel.isSome && student.hostel != some id then (db, 400)
          else
            let saved := hostelPreSave true { hostel with rooms := addOccupant rn sid hostel.rooms }
            if henv.hostelSaveOk saved then
              let db1 : HostelDb :=
                { db with hostels := db.hostels.map (fun h => if h._id == id then saved else h) }
              let moved : HostelStudent :=
                { student with hostel := some hostel._id, hostelRoom := some rn }
              if henv.studentSaveOk moved then
                ({ db1 with
                   students := db1.students.map (fun s => if s._id == sid then moved else s) },
                  200)
              else (db1, 500)
            else (db, 500)
  | _, _ => (db, 400)

/-! ## Fees: `createFee` and `getStudentFeeSummary` -/

/-- The course of a student as `populate('course', 'name code totalFee')`
delivers it. -/
structure FeeCourse where
  _id : Nat
  name : String
  totalFee : Int
  deriving DecidableEq, Repr

/-- A stored fee record: the fields the fee handlers filter on, and under `fee`
the fields the pre-save hook works on. -/
structure FeeRecord where
  _id : Nat
  student : Nat
  status : String
  academicYear : String
  fee : Fee
  deriving DecidableEq, Repr

/-- The populated course of a student: `null` when no stored course has the
referenced id. -/
def populatedCourse (courses : List FeeCourse) (s : Student) : Option FeeCourse :=
  courses.find? (fun c => c._id == s.doc.course)

/-- The expression `student.course ? student.course.totalFee : 0`. -/
def courseTotalFee (courses : List FeeCourse) (s : Student) : Int :=
  match populatedCourse courses s with
  | some c => c.totalFee
  | none => 0

/-- The sum `fees.reduce((sum, fee) => sum + fee.amount, 0)`. -/
def sumAmounts (fees : List FeeRecord) : Int :=
  (fees.map (fun f => f.fee.amount)).sum

/-- The body of `POST /api/fees`, with the fields `createFee` and the hook
look at. -/
structure CreateFeeBody where
  student : Option Nat
  amount : Option Int
  remainingAmount : Option Int
  paidAmount : Option Int
  status : Option String
  academicYear : String
  receiptNumber : Option String
  deriving DecidableEq, Repr

/-- The current date and whether the store accepts a new fee record. -/
structure FeeEnv where
  year : Nat
  monthIndex : Nat
  feeCreateOk : FeeRecord → Bool

/-- Lines 112-129 of `createFee`: the `remainingAmount` of `feeData`. When the
body gives no (or a zero) `remainingAmount` and a non-zero `amount`, it is the
course's total fee minus the paid fees of the student for the year and this
amount; otherwise it is what the body gave. -/
def requestedRemaining (courses : List FeeCourse) (fees : List FeeRecord) (s : Student)
    (body : CreateFeeBody) : Option Int :=
  match body.amount with
  | some amount =>
    if (body.remainingAmount == none || body.remainingAmount == some 0) && amount != 0 then
      let totalFee := courseTotalFee courses s
      let paidFees := fees.filter (fun f =>
        f.student == s._id && f.status == "paid" && f.academicYear == body.academicYear)
      let totalPaid := sumAmounts paidFees
      some (totalFee - (totalPaid + amount))
    else body.remainingAmount
  | none => body.remainingAmount

/-- The handler `createFee` (controller lines 99-146): 400 when the student is
not found; otherwise `Fee.create(feeData)` builds the document with the
schema's defaults (`paidAmount` 0, `status` 'Pending'), runs the pre-save hook
on the current document count and stores the record, answered with 201. A body
without `amount`, which the schema requires, and a rejected write are answered
with 500. -/
def createFee (fenv : FeeEnv) (students : List Student) (courses : List FeeCourse)
    (fees : List FeeRecord) (nextId : Nat) (body : CreateFeeBody) : List FeeRecord × Nat :=
  match body.student.bind (fun sid => students.find? (fun s => s._id == sid)) with
  | none => (fees, 400)
  | some s =>
    match body.amount with
    | none => (fees, 500)
    | some amount =>
      let feeData : Fee :=
        { receiptNumber := body.receiptNumber
          amount := amount
          paidAmount := some (body.paidAmount.getD 0)
          remainingAmount := requestedRemaining courses fees s body }
      let record : FeeRecord :=
        { _id := nextId
          student := s._id
          status := body.status.getD "Pending"
          academicYear := body.academicYear
          fee := feePreSave fenv.year fenv.monthIndex fees.length feeData }
      if fenv.feeCreateOk record then (fees ++ [record], 201) else (fees, 500)

/-- The student record as `getStudentFeeSummary` reads it. `user` and `course`
are paths of `models/Student.js`; `personalDetails` is not one, so it reads
`undefined` (`none`) on every record the Student model hands over, and it is
present only on a value that did not come through that model. -/
structure FeeStudent where
  _id : Nat
  user : Option Nat
  course : Nat
  personalDetails : Option PersonalDetails
  deriving DecidableEq, Repr

/-- The `data` of the answer of `getStudentFeeSummary`: the student's id and
name and the fee summary, without the upcoming due (which depends on
dates). -/
structure FeeSummary where
  student : Nat
  name : String
  totalFee : Int
  totalPaid : Int
  totalDue : Int
  paymentHistory : List FeeRecord
  deriving DecidableEq, Repr

/-- The handler `getStudentFeeSummary` (controller lines 225-298) for the
authenticated user `user` and the student id `req.params.studentId`: 404 when
the student is not found, 403 from the guard of line 238, and otherwise the
summary is computed and the answer is built. Building it reads
`student.personalDetails.firstName` (line 266), which throws when
`personalDetails` is `undefined`; the `catch` answers 500. -/
def getStudentFeeSummary (user : AuthUser) (students : List FeeStudent)
    (courses : List FeeCourse) (fees : List FeeRecord) (studentId : Nat) :
    Nat × Option FeeSummary :=
  match students.find? (fun s => s._id == studentId) with
  | none => (404, none)
  | some s =>
    if user.role == "student" && s.user.isSome && s.user != some user.id then
      (403, none)
    else
      let feeRecords := fees.filter (fun f => f.student == studentId)
      let totalFee :=
        match courses.find? (fun c => c._id == s.course) with
        | some c => c.totalFee
        | none => 0
      let totalPaid := sumAmounts (feeRecords.filter (fun f => f.status == "paid"))
      match s.personalDetails with
      | none => (500, none)
      | some pd =>
        (200, some
          { student := s._id
            name := pd.firstName ++ " " ++ pd.lastName
            totalFee := totalFee
            totalPaid := totalPaid
            totalDue := totalFee - totalPaid
            paymentHistory := feeRecords })

/-- A course with a total fee of 20000. -/
def pricedCourse : FeeCourse :=
  { _id := 101, name := "Computer Science", totalFee := 20000 }

/-- A paid fee of 3000 of Jane's student record. -/
def janePaidFee : FeeRecord :=
  { _id := 30
    student := 7
    status := "paid"
    academicYear := "2025"
    fee :=
      { receiptNumber := some "FEE-2510-0001", amount := 3000, paidAmount := some 3000,
        remainingAmount := some 0 } }

/-- A request to record a fee of 5000 for Jane's student record. -/
def janeFeeBody : CreateFeeBody :=
  { student := some 7
    amount := some 5000
    remainingAmount := none
    paidAmount := none
    status := none
    academicYear := "2025"
    receiptNumber := none }

/-- A store of fees that accepts every record, in November 2025. -/
def feeAcceptAll : FeeEnv :=
  { year := 2025, monthIndex := 10, feeCreateOk := fun _ => true }

/-- A user with the role 'student' who is linked to no student record. -/
def otherStudentUser : AuthUser :=
  { id := 55, role := "student" }

/-- Three applications of 2025: two approved, one pending, none rejected. -/
def statsAdmissions : List Admission :=
  [{ jane with _id := 1, status := "approved" },
   { jane with _id := 2, status := "approved" },
   { jane with _id := 3, status := "pending" }]

/-- A hostel with two single rooms, 101 occupied by student 7 and 102 free,
and the students 7 and 8. -/
def fullHostelDb : HostelDb :=
  { hostels :=
      [{ _id := 1
         name := "North Hall"
         occupiedCount := 1
         rooms :=
           [{ roomNumber := "101"
              capacity := 1
              occupiedCount := 1
              occupants := [{ student := 7, status := "Active" }]
              status := "Fully Occupied" },
            { roomNumber := "102"
              capacity := 1
              occupiedCount := 0
              occupants := []
              status := "Available" }] }]
    students :=
      [{ _id := 7, hostel := some 1, hostelRoom := some "101" },
       { _id := 8, hostel := none, hostelRoom := none }] }

/-! ## Applications as `models/Admission.js` stores them -/

/-- An application as `models/Admission.js` declares it (lines 3-121), with
the paths the handlers come across. `address`, `guardianDetails`, the entries
of `previousEducation` and of `documents`, `remarks` and `admissionFee` are
kept as uninterpreted values. -/
structure StoredAdmission where
  _id : Nat
  applicationNumber : Option String
  applicantName : String
  email : String
  contactNumber : String
  dateOfBirth : String
  gender : String
  address : String
  guardianDetails : String
  previousEducation : List String
  appliedCourse : Nat
  documents : List String
  status : String
  remarks : JsVal
  admissionFee : JsVal
  student : Option Nat
  deriving DecidableEq, Repr

/-- The document `Admission.findById` hands to the controller for a stored
application. The schema is strict: a path it does not declare reads
`undefined` on the document, so `applicantDetails`, `contactDetails` and
`interviewDetails` are absent, whatever the request that created the
application carried. `academicYear` is no path of the schema either; the
controller reads it at line 269 only, after `applicantDetails`, and the
document carries the empty string for it. The schema's `applicantName`,
`email`, `contactNumber`, `dateOfBirth` and `gender` are on the stored
application and `processAdmission` reads none of them. -/
def hydrate (s : StoredAdmission) : Admission :=
  { _id := s._id
    applicationNumber := s.applicationNumber
    applicantDetails := none
    contactDetails := none
    address := s.address
    guardianDetails := s.guardianDetails
    appliedCourse := s.appliedCourse
    academicYear := ""
    previousEducation := s.previousEducation
    documents := s.documents
    status := s.status
    remarks := s.remarks
    interviewDetails := JsVal.undefined
    admissionFee := s.admissionFee
    student := s.student }

/-- The store with the validators the models of the repository declare, in
the year 2025. A save of an application passes when its status is one of the
`enum` of `Admission.js` line 80 and it has the application number lines 4-8
require; `Student.create` applies the required paths of `models/Student.js`.
`User.create` accepts every account: the User model is not part of the
sources, and no result below depends on what it accepts. -/
def schemaStore : Env :=
  { year := 2025
    userCreateOk := fun _ => true
    studentCreateOk := passesRequired
    admissionSaveOk := fun a =>
      decide (a.status ∈ declaredStatuses) && strTruthy a.applicationNumber }

/-- The stored form of the application of the specification's scenario, with
the status the schema gives a new application. -/
def storedJane : StoredAdmission :=
  { _id := 1
    applicationNumber := some "ADM-25-0001"
    applicantName := "Jane Doe"
    email := "a@x.com"
    contactNumber := "5550100"
    dateOfBirth := "2004-03-01"
    gender := "Female"
    address := "1 Main Street"
    guardianDetails := "John Doe"
    previousEducation := []
    appliedCourse := 101
    documents := []
    status := "Pending"
    remarks := JsVal.undefined
    admissionFee := JsVal.obj "paid: false"
    student := none }

/-- A store holding only Jane's stored application. -/
def storedJaneDb : Db :=
  { admissions := [hydrate storedJane], students := [], users := [], nextId := 10, calls := [] }

/-- Jane's stored application next to an existing account with her email. -/
def storedJaneDbWithAccount : Db :=
  { storedJaneDb with users := [janeAccount] }

/-- Jane's stored application with a remark on file. -/
def storedJaneRemarked : StoredAdmission :=
  { storedJane with remarks := JsVal.str "documents pending" }

/-- A store holding only the stored application with the remark. -/
def storedJaneRemarkedDb : Db :=
  { storedJaneDb with admissions := [hydrate storedJaneRemarked] }

/-- A request that rejects the application with a remark. -/
def remarkBody : ProcessBody :=
  { status := JsVal.str "rejected"
    remarks := JsVal.str "late documents"
    interviewDetails := JsVal.undefined
    admissionFee := JsVal.undefined }

/-! ## Ids as a request carries them -/

/-- An id as a request carries it (`req.params.id`, `req.body.appliedCourse`):
a string Mongoose casts to an ObjectId, here a natural number, or a string it
cannot cast. -/
inductive RequestId where
  | objectId (id : Nat)
  | malformed (text : String)
  deriving DecidableEq, Repr

/-- The route `PUT /api/admissions/:id/process` on the id as the request
carries it. The status test of line 214 comes first; `Admission.findById` on an
id that is no ObjectId throws a cast error before the collection is read, and
the `catch` of line 286 answers 500. -/
def processAdmissionRequest (env : Env) (db : Db) (rid : RequestId) (body : ProcessBody) :
    Db × Response :=
  match rid with
  | .objectId id => processAdmission env db id body
  | .malformed _ =>
    match acceptedStatus body.status with
    | none => (db, { code := 400, data := none })
    | some _ => (db, { code := 500, data := none })

/-- The route `POST /api/admissions` with `req.body.appliedCourse` as the
request carries it (`course`), the other fields being those of `body`:
`Course.findById` on a value that is no ObjectId throws a cast error, answered
with 500; otherwise the handler runs on the cast id. -/
def createAdmissionRequest (env : Env) (courses : List Course) (db : Db)
    (course : Option RequestId) (body : CreateBody) : Db × Response :=
  match course with
  | some (.malformed _) => (db, { code := 500, data := none })
  | some (.objectId c) => createAdmission env courses db { body with appliedCourse := some c }
  | none => createAdmission env courses db { body with appliedCourse := none }

/-- The route `PUT /api/admissions/:id` with `req.params.id` and
`req.body.appliedCourse` as the request carries them: a `req.params.id` that is
no ObjectId makes `Admission.findById` throw (500); for a stored application,
an `appliedCourse` that is no ObjectId makes `Course.findById` throw (500);
otherwise the handler runs on the cast ids. -/
def updateAdmissionRequest (wenv : WriteEnv) (courses : List Course) (db : Db)
    (rid : RequestId) (course : Option RequestId) (body : UpdateBody) : Db × Response :=
  match rid with
  | .malformed _ => (db, { code := 500, data := none })
  | .objectId id =>
    match course with
    | some (.malformed _) =>
      match findAdmission db id with
      | none => (db, { code := 404, data := none })
      | some _ => (db, { code := 500, data := none })
    | some (.objectId c) => updateAdmission wenv courses db id { body with appliedCourse := some c }
    | none => updateAdmission wenv courses db id { body with appliedCourse := none }

/-! ## Sequences of creations and deletions -/

/-- One request of a sequence of application creations and deletions. -/
inductive AdmissionOp where
  | create (body : CreateBody)
  | remove (id : Nat)
  deriving DecidableEq, Repr

/-- The store after one request of the sequence. -/
def applyOp (env : Env) (wenv : WriteEnv) (courses : List Course) (db : Db) :
    AdmissionOp → Db
  | .create body => (createAdmission env courses db body).1
  | .remove id => (deleteAdmission wenv db id).1

/-- The store after the requests `ops`, made one after the other. -/
def runOps (env : Env) (wenv : WriteEnv) (courses : List Course) (db : Db)
    (ops : List AdmissionOp) : Db :=
  ops.foldl (applyOp env wenv courses) db

/-! ## Student records as the fee handlers read them -/

/-- Jane's student record as the Student model hands it over: linked to no
user, and without `personalDetails`. -/
def storedStudent7 : FeeStudent :=
  { _id := 7, user := none, course := 101, personalDetails := none }

/-- A student record linked to user 4. -/
def linkedStudent7 : FeeStudent :=
  { storedStudent7 with user := some 4 }

/-! ## Lemmas and theorems -/

theorem acceptedStatus_eq_none (v : JsVal) (h : ∀ s ∈ acceptedStatuses, v ≠ JsVal.str s) :
    acceptedStatus v = none := by
  cases v with
  | str s =>
    by_cases hs : s ∈ acceptedStatuses
    · exact absurd rfl (h s hs)
    · simp [acceptedStatus, hs]
  | _ => rfl

theorem acceptedStatus_eq_some (v : JsVal) (s : String) (hs : s ∈ acceptedStatuses)
    (hv : v = JsVal.str s) : acceptedStatus v = some s := by
  subst hv
  simp [acceptedStatus, hs]

theorem findAdmission_logged (db : Db) (c : StoreCall) (id : Nat) :
    findAdmission (db.logged c) id = findAdmission db id := rfl

theorem findAdmission_eq_none (db : Db) (id : Nat) (h : ∀ a ∈ db.admissions, a._id ≠ id) :
    findAdmission db id = none := by
  unfold findAdmission
  rw [List.find?_eq_none]
  intro a ha
  simpa using h a ha

/-- C8: a request whose status is not one of 'approved', 'rejected',
'pending', 'interview_scheduled' (a missing status included) is answered 400,
and the store is returned as it was: the application, every student and every
account are unchanged, and no store call is made. -/
theorem processAdmission_invalid_status (env : Env) (db : Db) (id : Nat) (body : ProcessBody)
    (h : ∀ s ∈ acceptedStatuses, body.status ≠ JsVal.str s) :
    processAdmission env db id body = (db, { code := 400, data := none }) := by
  simp [processAdmission, acceptedStatus_eq_none body.status h]

theorem processAdmission_eq_notFound (env : Env) (db : Db) (id : Nat) (body : ProcessBody)
    (s : String) (hs : acceptedStatus body.status = some s) (hnone : findAdmission db id = none) :
    processAdmission env db id body =
      (db.logged (.admissionFindById id), { code := 404, data := none }) := by
  simp only [processAdmission, hs, findAdmission_logged, hnone]

theorem processAdmission_eq_found (env : Env) (db : Db) (id : Nat) (body : ProcessBody)
    (s : String) (found : Admission) (hs : acceptedStatus body.status = some s)
    (hfound : findAdmission db id = some found) :
    processAdmission env db id body =
      if s == "approved" && (applyBody found s body).student.isNone then
        match convert env (db.logged (.admissionFindById id)) (applyBody found s body) with
        | (db1, none) => (db1, { code := 500, data := none })
        | (db1, some linked) => saveAndRespond env db1 linked
      else saveAndRespond env (db.logged (.admissionFindById id)) (applyBody found s body) := by
  simp only [processAdmission, hs, findAdmission_logged, hfound]

/-- With an accepted status and a well-formed id that no stored application
has, the answer is 404 and the application, student and account collections
are unchanged. -/
theorem processAdmission_not_found (env : Env) (db : Db) (id : Nat) (body : ProcessBody)
    (s : String) (hs : s ∈ acceptedStatuses) (hbody : body.status = JsVal.str s)
    (hid : ∀ a ∈ db.admissions, a._id ≠ id) :
    (processAdmission env db id body).2.code = 404 ∧
    (processAdmission env db id body).1.admissions = db.admissions ∧
    (processAdmission env db id body).1.students = db.students ∧
    (processAdmission env db id body).1.users = db.users := by
  rw [processAdmission_eq_notFound env db id body s (acceptedStatus_eq_some _ s hs hbody)
    (findAdmission_eq_none db id hid)]
  exact ⟨rfl, rfl, rfl, rfl⟩

theorem findUser_logged (db : Db) (c : StoreCall) (e : String) :
    findUserByEmail (db.logged c) e = findUserByEmail db e := rfl

/-- What `resolveUser` returns, case by case. -/
theorem resolveUser_cases (env : Env) (db : Db) (a : Admission) :
    (applicantEmail a = none ∧ resolveUser env db a = (db, some none)) ∨
    (∃ e u, applicantEmail a = some e ∧ findUserByEmail db e = some u ∧
      resolveUser env db a = (db.logged (.userFindOne e), some (some u))) ∨
    (∃ e, applicantEmail a = some e ∧ findUserByEmail db e = none ∧
      a.applicantDetails = none ∧
      resolveUser env db a = (db.logged (.userFindOne e), none)) ∨
    (∃ e ad, applicantEmail a = some e ∧ findUserByEmail db e = none ∧
      a.applicantDetails = some ad ∧
      env.userCreateOk (newUserInput ad e a.contactDetails) = false ∧
      resolveUser env db a =
        ((db.logged (.userFindOne e)).logged (.userCreate (newUserInput ad e a.contactDetails)),
          none)) ∨
    (∃ e ad, applicantEmail a = some e ∧ findUserByEmail db e = none ∧
      a.applicantDetails = some ad ∧
      env.userCreateOk (newUserInput ad e a.contactDetails) = true ∧
      resolveUser env db a =
        ({ (db.logged (.userFindOne e)).logged
              (.userCreate (newUserInput ad e a.contactDetails)) with
            users := db.users ++ [createdUser db.nextId (newUserInput ad e a.contactDetails)]
            nextId := db.nextId + 1 },
          some (some (createdUser db.nextId (newUserInput ad e a.contactDetails))))) := by
  cases he : applicantEmail a with
  | none => left; exact ⟨rfl, by simp only [resolveUser, he]⟩
  | some e =>
    right
    cases hu : findUserByEmail db e with
    | some u =>
      left
      exact ⟨e, u, rfl, hu, by simp only [resolveUser, he, findUser_logged, hu]⟩
    | none =>
      right
      cases had : a.applicantDetails with
      | none =>
        left
        exact ⟨e, rfl, hu, rfl, by simp only [resolveUser, he, findUser_logged, hu, had]⟩
      | some ad =>
        right
        cases hacc : env.userCreateOk (newUserInput ad e a.contactDetails) with
        | false =>
          left
          refine ⟨e, ad, rfl, hu, rfl, hacc, ?_⟩
          simp only [resolveUser, he, findUser_logged, hu, had, hacc]
          rfl
        | true =>
          right
          refine ⟨e, ad, rfl, hu, rfl, hacc, ?_⟩
          simp only [resolveUser, he, findUser_logged, hu, had, hacc]
          rfl

theorem applicantEmail_applyBody (a : Admission) (s : String) (b : ProcessBody) :
    applicantEmail (applyBody a s b) = applicantEmail a := rfl

theorem preSave_id (y n : Nat) (a : Admission) : (preSave y n a)._id = a._id := by
  unfold preSave; split <;> rfl

theorem preSave_student (y n : Nat) (a : Admission) : (preSave y n a).student = a.student := by
  unfold preSave; split <;> rfl

theorem preSave_status (y n : Nat) (a : Admission) : (preSave y n a).status = a.status := by
  unfold preSave; split <;> rfl

/-- Looking up `id` after the document with that `_id` was overwritten by `a1`. -/
theorem find?_map_replace (l : List Admission) (id : Nat) (found a1 : Admission)
    (h : l.find? (fun a => a._id == id) = some found) (h1 : a1._id = id) :
    (l.map (fun x => if x._id == a1._id then a1 else x)).find? (fun a => a._id == id)
      = some a1 := by
  induction l with
  | nil => simp at h
  | cons x xs ih =>
    rw [List.map_cons]
    by_cases hx : x._id = id
    · have hc : (x._id == a1._id) = true := by rw [h1]; exact beq_iff_eq.mpr hx
      have h1b : (a1._id == id) = true := beq_iff_eq.mpr h1
      rw [if_pos hc]
      simp only [List.find?_cons, h1b]
    · have hc : ¬ (x._id == a1._id) = true := by
        rw [h1]; exact fun hh => hx (beq_iff_eq.mp hh)
      have hp : (x._id == id) = false := by
        cases hb : (x._id == id) with
        | false => rfl
        | true => exact absurd (beq_iff_eq.mp hb) hx
      rw [if_neg hc]
      simp only [List.find?_cons, hp] at h ⊢
      exact ih h

/-- Documents with another `_id` are not touched by the overwrite. -/
theorem filter_map_replace (l : List Admission) (a1 : Admission) :
    (l.map (fun x => if x._id == a1._id then a1 else x)).filter (fun a => a._id != a1._id)
      = l.filter (fun a => a._id != a1._id) := by
  induction l with
  | nil => rfl
  | cons x xs ih =>
    rw [List.map_cons]
    by_cases hx : x._id = a1._id
    · have hc : (x._id == a1._id) = true := beq_iff_eq.mpr hx
      have hp1 : (a1._id != a1._id) = false := by simp
      have hp2 : (x._id != a1._id) = false := by simp [hx]
      rw [if_pos hc]
      simp only [List.filter_cons, hp1, hp2, ih]
      simp
    · have hc : ¬ (x._id == a1._id) = true := fun hh => hx (beq_iff_eq.mp hh)
      have hp : (x._id != a1._id) = true := by simp [hx]
      rw [if_neg hc]
      simp only [List.filter_cons, hp, ih]

/-- What `saveAndRespond` returns, case by case. -/
theorem saveAndRespond_cases (env : Env) (db : Db) (a : Admission) :
    (env.admissionSaveOk a = true ∧
      saveAndRespond env db a =
        ({ db.logged (.admissionSave a._id) with
            admissions := db.admissions.map
              (fun x => if x._id == a._id then preSave env.year db.admissions.length a else x) },
          { code := 200, data := some (preSave env.year db.admissions.length a) })) ∨
    (env.admissionSaveOk a = false ∧
      saveAndRespond env db a = (db.logged (.admissionSave a._id), { code := 500, data := none })) := by
  cases h : env.admissionSaveOk a with
  | true =>
    left
    refine ⟨rfl, ?_⟩
    simp only [saveAndRespond, saveAdmission, h, preSave_id]
    rfl
  | false =>
    right
    refine ⟨rfl, ?_⟩
    simp only [saveAndRespond, saveAdmission, h]
    rfl

/-- What `createStudent` returns, case by case. -/
theorem createStudent_cases (env : Env) (db : Db) (a : Admission) (user : Option User) :
    (a.applicantDetails = none ∧ createStudent env db a user = (db, none)) ∨
    (∃ ad, a.applicantDetails = some ad ∧ env.studentCreateOk (newStudentDoc a ad user) = false ∧
      createStudent env db a user = (db.logged (.studentCreate (newStudentDoc a ad user)), none)) ∨
    (∃ ad, a.applicantDetails = some ad ∧ env.studentCreateOk (newStudentDoc a ad user) = true ∧
      createStudent env db a user =
        ({ db.logged (.studentCreate (newStudentDoc a ad user)) with
            students := db.students ++ [{ _id := db.nextId, doc := newStudentDoc a ad user }]
            nextId := db.nextId + 1 },
          some { _id := db.nextId, doc := newStudentDoc a ad user })) := by
  cases had : a.applicantDetails with
  | none => left; exact ⟨rfl, by simp only [createStudent, had]⟩
  | some ad =>
    right
    cases hacc : env.studentCreateOk (newStudentDoc a ad user) with
    | false =>
      left
      refine ⟨ad, rfl, hacc, ?_⟩
      simp only [createStudent, had, hacc]
      rfl
    | true =>
      right
      refine ⟨ad, rfl, hacc, ?_⟩
      simp only [createStudent, had, hacc]
      rfl

theorem processAdmission_eq_convert (env : Env) (db : Db) (id : Nat) (body : ProcessBody)
    (found : Admission) (hstatus : body.status = JsVal.str "approved")
    (hfound : findAdmission db id = some found) (hunlinked : found.student = none) :
    processAdmission env db id body =
      match convert env (db.logged (.admissionFindById id)) (applyBody found "approved" body) with
      | (db1, none) => (db1, { code := 500, data := none })
      | (db1, some linked) => saveAndRespond env db1 linked := by
  have hs : acceptedStatus body.status = some "approved" :=
    acceptedStatus_eq_some _ _ (by decide) hstatus
  have hcond : ("approved" == "approved" &&
      (applyBody found "approved" body).student.isNone) = true := by
    simp [applyBody, hunlinked]
  rw [processAdmission_eq_found env db id body _ found hs hfound, if_pos hcond]

theorem processAdmission_eq_save (env : Env) (db : Db) (id : Nat) (body : ProcessBody)
    (s : String) (found : Admission) (hs : s ∈ acceptedStatuses)
    (hstatus : body.status = JsVal.str s)
    (hfound : findAdmission db id = some found)
    (hno : s ≠ "approved" ∨ found.student ≠ none) :
    processAdmission env db id body =
      saveAndRespond env (db.logged (.admissionFindById id)) (applyBody found s body) := by
  have hcond : ¬ (s == "approved" && (applyBody found s body).student.isNone) = true := by
    rcases hno with h | h
    · simp [h]
    · cases hst : found.student with
      | none => exact absurd hst h
      | some x => simp [applyBody, hst]
  rw [processAdmission_eq_found env db id body s found
    (acceptedStatus_eq_some _ s hs hstatus) hfound, if_neg hcond]

theorem saveAndRespond_students (env : Env) (db : Db) (a : Admission) :
    (saveAndRespond env db a).1.students = db.students := by
  rcases saveAndRespond_cases env db a with ⟨_, h⟩ | ⟨_, h⟩ <;> rw [h] <;> rfl

theorem saveAndRespond_users (env : Env) (db : Db) (a : Admission) :
    (saveAndRespond env db a).1.users = db.users := by
  rcases saveAndRespond_cases env db a with ⟨_, h⟩ | ⟨_, h⟩ <;> rw [h] <;> rfl

theorem resolveUser_students (env : Env) (db : Db) (a : Admission) :
    (resolveUser env db a).1.students = db.students := by
  rcases resolveUser_cases env db a with
    ⟨_, h⟩ | ⟨_, _, _, _, h⟩ | ⟨_, _, _, _, h⟩ | ⟨_, _, _, _, _, _, h⟩ | ⟨_, _, _, _, _, _, h⟩ <;>
  rw [h] <;> rfl

theorem resolveUser_admissions (env : Env) (db : Db) (a : Admission) :
    (resolveUser env db a).1.admissions = db.admissions := by
  rcases resolveUser_cases env db a with
    ⟨_, h⟩ | ⟨_, _, _, _, h⟩ | ⟨_, _, _, _, h⟩ | ⟨_, _, _, _, _, _, h⟩ | ⟨_, _, _, _, _, _, h⟩ <;>
  rw [h] <;> rfl

theorem findAdmission_id (db : Db) (id : Nat) (found : Admission)
    (h : findAdmission db id = some found) : found._id = id := by
  have := List.find?_some h
  exact beq_iff_eq.mp this

/-- The stored application after `saveAndRespond`: the saved document on 200,
the previous one on 500. -/
theorem findAdmission_saveAndRespond (env : Env) (db : Db) (id : Nat) (f a : Admission)
    (hf : findAdmission db id = some f) (hid : a._id = id) :
    ((saveAndRespond env db a).2.code = 200 ∧
      findAdmission (saveAndRespond env db a).1 id
        = some (preSave env.year db.admissions.length a)) ∨
    ((saveAndRespond env db a).2.code = 500 ∧
      findAdmission (saveAndRespond env db a).1 id = some f) := by
  rcases saveAndRespond_cases env db a with ⟨_, h⟩ | ⟨_, h⟩
  · left
    rw [h]
    refine ⟨rfl, ?_⟩
    have := find?_map_replace db.admissions id f (preSave env.year db.admissions.length a) hf
      (by rw [preSave_id]; exact hid)
    simpa only [preSave_id] using this
  · right
    rw [h]
    exact ⟨rfl, hf⟩

theorem resolveUser_users (env : Env) (db : Db) (a : Admission) :
    (resolveUser env db a).1.users = db.users ∨
    ∃ u, (resolveUser env db a).1.users = db.users ++ [u] := by
  rcases resolveUser_cases env db a with
    ⟨_, h⟩ | ⟨_, _, _, _, h⟩ | ⟨_, _, _, _, h⟩ | ⟨_, _, _, _, _, _, h⟩ | ⟨_, _, _, _, _, _, h⟩ <;>
  rw [h]
  · exact Or.inl rfl
  · exact Or.inl rfl
  · exact Or.inl rfl
  · exact Or.inl rfl
  · exact Or.inr ⟨_, rfl⟩

theorem createStudent_users (env : Env) (db : Db) (a : Admission) (user : Option User) :
    (createStudent env db a user).1.users = db.users := by
  rcases createStudent_cases env db a user with ⟨_, h⟩ | ⟨_, _, _, h⟩ | ⟨_, _, _, h⟩ <;>
  rw [h] <;> rfl

theorem convert_users (env : Env) (db : Db) (a : Admission) :
    (convert env db a).1.users = (resolveUser env db a).1.users := by
  unfold convert
  generalize resolveUser env db a = r
  obtain ⟨db1, ou⟩ := r
  cases ou with
  | none => rfl
  | some user =>
    simp only
    have := createStudent_users env db1 a user
    generalize createStudent env db1 a user = c at this ⊢
    obtain ⟨db2, os⟩ := c
    cases os <;> exact this

/-- On the conversion path the accounts after the call are those the account
step left. -/
theorem processAdmission_convert_users (env : Env) (db : Db) (id : Nat) (body : ProcessBody)
    (found : Admission) (hstatus : body.status = JsVal.str "approved")
    (hfound : findAdmission db id = some found) (hunlinked : found.student = none) :
    (processAdmission env db id body).1.users =
      (resolveUser env (db.logged (.admissionFindById id))
        (applyBody found "approved" body)).1.users := by
  rw [processAdmission_eq_convert env db id body found hstatus hfound hunlinked,
    ← convert_users]
  generalize convert env (db.logged (.admissionFindById id))
    (applyBody found "approved" body) = c
  obtain ⟨db2, o⟩ := c
  cases o with
  | none => rfl
  | some linked => exact saveAndRespond_users env db2 linked

theorem saveAndRespond_calls (env : Env) (db : Db) (a : Admission) :
    (saveAndRespond env db a).1.calls = db.calls ++ [.admissionSave a._id] := by
  rcases saveAndRespond_cases env db a with ⟨_, h⟩ | ⟨_, h⟩ <;> rw [h] <;> rfl

theorem saveAndRespond_admissions_filter (env : Env) (db : Db) (a : Admission) :
    (saveAndRespond env db a).1.admissions.filter (fun x => x._id != a._id)
      = db.admissions.filter (fun x => x._id != a._id) := by
  rcases saveAndRespond_cases env db a with ⟨_, h⟩ | ⟨_, h⟩ <;> rw [h]
  · have := filter_map_replace db.admissions (preSave env.year db.admissions.length a)
    simpa only [preSave_id] using this
  · rfl

theorem applicantEmail_eq_none (a : Admission)
    (h : a.contactDetails = none ∨
      ∃ c, a.contactDetails = some c ∧ (c.email = none ∨ c.email = some "")) :
    applicantEmail a = none := by
  unfold applicantEmail
  rcases h with h | ⟨c, hc, he | he⟩
  · rw [h]
  · rw [hc]; simp [strTruthy, he]
  · rw [hc]; simp [strTruthy, he]

/-- C3: a call with status 'rejected', 'pending' or 'interview_scheduled', and
a call with status 'approved' on an application whose student reference is
set, leave the student and account collections unchanged; the only write is
the save of the application with the requested id, and every other application
is unchanged. -/
theorem processAdmission_no_conversion_frame (env : Env) (db : Db) (id : Nat)
    (body : ProcessBody) (s : String)
    (hs : s ∈ acceptedStatuses)
    (hstatus : body.status = JsVal.str s)
    (hno : s ≠ "approved" ∨
      ∃ found, findAdmission db id = some found ∧ found.student ≠ none) :
    (processAdmission env db id body).1.students = db.students ∧
    (processAdmission env db id body).1.users = db.users ∧
    (processAdmission env db id body).1.admissions.filter (fun a => a._id != id)
      = db.admissions.filter (fun a => a._id != id) ∧
    ((processAdmission env db id body).1.calls = db.calls ++ [.admissionFindById id] ∨
     (processAdmission env db id body).1.calls
        = db.calls ++ [.admissionFindById id, .admissionSave id]) := by
  cases hfound : findAdmission db id with
  | none =>
    rw [processAdmission_eq_notFound env db id body s
      (acceptedStatus_eq_some _ s hs hstatus) hfound]
    exact ⟨rfl, rfl, rfl, Or.inl rfl⟩
  | some found =>
    have hno1 : s ≠ "approved" ∨ found.student ≠ none := by
      rcases hno with h | ⟨f, hf, hst⟩
      · exact Or.inl h
      · rw [hfound] at hf
        obtain rfl : found = f := Option.some.inj hf
        exact Or.inr hst
    have hid : (applyBody found s body)._id = id := findAdmission_id db id found hfound
    rw [processAdmission_eq_save env db id body s found hs hstatus hfound hno1]
    refine ⟨saveAndRespond_students _ _ _, saveAndRespond_users _ _ _, ?_, Or.inr ?_⟩
    · have := saveAndRespond_admissions_filter env (db.logged (.admissionFindById id))
        (applyBody found s body)
      rw [hid] at this
      exact this
    · rw [saveAndRespond_calls, hid]
      simp [Db.logged]

theorem toDigitsCore_eq_decimal (fuel : Nat) :
    ∀ (n : Nat) (ds : List Char), n < fuel → 0 < n →
      Nat.toDigitsCore 10 fuel n ds = decimal n ++ ds := by
  induction fuel with
  | zero => intro n ds h; omega
  | succ fuel ih =>
    intro n ds hlt hpos
    have hdig : Nat.digits 10 n = n % 10 :: Nat.digits 10 (n / 10) :=
      Nat.digits_def' (by decide) hpos
    unfold Nat.toDigitsCore
    simp only
    by_cases h0 : n / 10 = 0
    · rw [if_pos h0]
      unfold decimal
      rw [hdig, h0]
      simp
    · rw [if_neg h0]
      have hlt1 : n / 10 < fuel := by omega
      rw [ih (n / 10) _ hlt1 (by omega)]
      unfold decimal
      rw [hdig]
      simp

theorem toString_eq_decimal (n : Nat) (hpos : 0 < n) : toString n = String.mk (decimal n) := by
  show (Nat.toDigits 10 n).asString = _
  unfold Nat.toDigits
  rw [toDigitsCore_eq_decimal (n + 1) n [] (by omega) hpos]
  simp [List.asString]

theorem decimal_last_two (y : Nat) (hy : 10 ≤ y) :
    decimal y = decimal (y / 100) ++ [Nat.digitChar (y / 10 % 10), Nat.digitChar (y % 10)] := by
  unfold decimal
  rw [Nat.digits_def' (by decide) (by omega : 0 < y),
    Nat.digits_def' (by decide) (by omega : 0 < y / 10)]
  have : y / 10 / 10 = y / 100 := by omega
  rw [this]
  simp

theorem substrLast2_year (y : Nat) (hy : 10 ≤ y) :
    substrLast2 (toString y)
      = String.mk [Nat.digitChar (y / 10 % 10), Nat.digitChar (y % 10)] := by
  rw [toString_eq_decimal y (by omega), decimal_last_two y hy]
  unfold substrLast2
  simp [String.length]

theorem padStart_serial (m : Nat) (hpos : 0 < m) :
    padStart (toString m) 4 '0' = String.mk (zeroPadded 4 (decimal m)) := by
  rw [toString_eq_decimal m hpos]
  unfold padStart zeroPadded
  simp [String.length]
  rfl

theorem generateApplicationNumber_eq_spec (y n : Nat) (hy : 10 ≤ y) :
    generateApplicationNumber y n = specApplicationNumber y n := by
  unfold generateApplicationNumber specApplicationNumber
  simp only
  rw [substrLast2_year y hy, padStart_serial (n + 1) (by omega)]

/-- C10: for an application saved without an `applicationNumber`, when the
collection holds `n` documents and the current year is `fullYear` (of at least
two digits), the pre-save hook sets `applicationNumber` to 'ADM-', the last two
digits of the year, '-', and the decimal of `n + 1` left-padded with zeros to
at least four digits. -/
theorem preSave_sets_applicationNumber (fullYear n : Nat) (a : Admission)
    (hno : a.applicationNumber = none ∨ a.applicationNumber = some "")
    (hyear : 10 ≤ fullYear) :
    (preSave fullYear n a).applicationNumber = some (specApplicationNumber fullYear n) := by
  have hf : strTruthy a.applicationNumber = false := by
    rcases hno with h | h <;> rw [h] <;> rfl
  unfold preSave
  rw [hf]
  simp only [Bool.not_false, if_true]
  rw [generateApplicationNumber_eq_spec fullYear n hyear]

/-! ## The claims at concrete inputs -/

/-- The hook's string for the first application of 2025. -/
theorem generateApplicationNumber_first : generateApplicationNumber 2025 0 = "ADM-25-0001" := by
  decide

/-- The hook's string once the serial needs five digits. -/
theorem generateApplicationNumber_five_digits :
    generateApplicationNumber 2025 12344 = "ADM-25-12345" := by
  decide

/-- Witness of C3: rejecting Jane's application. -/
theorem processAdmission_no_conversion_frame_witness :
    (processAdmission acceptAll janeDb 1 (statusOnly (JsVal.str "rejected"))).1.students
      = janeDb.students ∧
    (processAdmission acceptAll janeDb 1 (statusOnly (JsVal.str "rejected"))).1.users
      = janeDb.users ∧
    (processAdmission acceptAll janeDb 1
        (statusOnly (JsVal.str "rejected"))).1.admissions.filter (fun a => a._id != 1)
      = janeDb.admissions.filter (fun a => a._id != 1) ∧
    ((processAdmission acceptAll janeDb 1 (statusOnly (JsVal.str "rejected"))).1.calls
        = janeDb.calls ++ [.admissionFindById 1] ∨
     (processAdmission acceptAll janeDb 1 (statusOnly (JsVal.str "rejected"))).1.calls
        = janeDb.calls ++ [.admissionFindById 1, .admissionSave 1]) :=
  processAdmission_no_conversion_frame acceptAll janeDb 1 (statusOnly (JsVal.str "rejected"))
    "rejected" (by decide) rfl (Or.inl (by decide))

/-- Witness of C8: the status 'enrolled' is not accepted by the endpoint. -/
theorem processAdmission_invalid_status_witness :
    processAdmission acceptAll janeDb 1 (statusOnly (JsVal.str "enrolled"))
      = (janeDb, { code := 400, data := none }) :=
  processAdmission_invalid_status acceptAll janeDb 1 (statusOnly (JsVal.str "enrolled"))
    (by decide)

/-- Witness of C10: the first application of 2025. -/
theorem preSave_sets_applicationNumber_witness :
    (preSave 2025 0 janeDraft).applicationNumber = some (specApplicationNumber 2025 0) :=
  preSave_sets_applicationNumber 2025 0 janeDraft (Or.inl rfl) (by decide)

/-! ## The identifier hooks: receipt numbers and regeneration -/

theorem padStart_decimal (m width : Nat) (hpos : 0 < m) :
    padStart (toString m) width '0' = String.mk (zeroPadded width (decimal m)) := by
  rw [toString_eq_decimal m hpos]
  unfold padStart zeroPadded
  simp [String.length]
  rfl

theorem generateReceiptNumber_eq_dated (y m n : Nat) (hy : 10 ≤ y) :
    generateReceiptNumber y m n = datedReceiptNumber y m n := by
  unfold generateReceiptNumber datedReceiptNumber
  simp only
  rw [substrLast2_year y hy, padStart_decimal (m + 1) 2 (by omega),
    padStart_decimal (n + 1) 4 (by omega)]

theorem feePreSave_receiptNumber (y m n : Nat) (f : Fee) :
    (feePreSave y m n f).receiptNumber =
      if !strTruthy f.receiptNumber then some (generateReceiptNumber y m n)
      else f.receiptNumber := by
  unfold feePreSave
  simp only
  split <;> split <;> (try split) <;> simp_all

/-- C11, amended: for a fee saved without a receipt number, when the
collection holds `n` documents, the year has at least two digits and the month
index is `m`, the hook sets `receiptNumber` to 'FEE-', the last two digits of
the year, the month number `m + 1` on two digits, '-', and `n + 1` left-padded
with zeros to at least four digits. -/
theorem feePreSave_sets_receiptNumber (fullYear monthIndex n : Nat) (f : Fee)
    (hno : f.receiptNumber = none ∨ f.receiptNumber = some "")
    (hyear : 10 ≤ fullYear) :
    (feePreSave fullYear monthIndex n f).receiptNumber
      = some (datedReceiptNumber fullYear monthIndex n) := by
  have hf : strTruthy f.receiptNumber = false := by
    rcases hno with h | h <;> rw [h] <;> rfl
  rw [feePreSave_receiptNumber, hf, ← generateReceiptNumber_eq_dated fullYear monthIndex n hyear]
  rfl

theorem generateApplicationNumber_ne_empty (y n : Nat) :
    generateApplicationNumber y n ≠ "" := by
  intro h
  have := congrArg String.length h
  simp only [generateApplicationNumber, String.length_append] at this
  have h4 : "ADM-".length = 4 := by decide
  have h0 : "".length = 0 := by decide
  omega

/-- Running the hook on its own output changes nothing, whatever the year and
the count of the second run. -/
theorem preSave_preSave (y1 n1 y2 n2 : Nat) (a : Admission) :
    preSave y2 n2 (preSave y1 n1 a) = preSave y1 n1 a := by
  by_cases h : strTruthy a.applicationNumber = true
  · have h1 : preSave y1 n1 a = a := by simp [preSave, h]
    rw [h1]
    simp [preSave, h]
  · have hf : strTruthy a.applicationNumber = false := by simpa using h
    have h1 : preSave y1 n1 a
        = { a with applicationNumber := some (generateApplicationNumber y1 n1) } := by
      simp [preSave, hf]
    rw [h1]
    have h2 : strTruthy (some (generateApplicationNumber y1 n1)) = true := by
      simp [strTruthy, generateApplicationNumber_ne_empty]
    simp [preSave, h2]

/-- C12: for an application whose `applicationNumber` is set (non-empty), the
pre-save hook returns the application as it is, whatever the year and the
document count; and a second run of the hook, with any year and count, gives
what the first run gave. -/
theorem preSave_keeps_applicationNumber (y1 n1 y2 n2 : Nat) (a : Admission) (s : String)
    (hset : a.applicationNumber = some s) (hs : s ≠ "") :
    (preSave y1 n1 a).applicationNumber = some s ∧
    preSave y1 n1 a = a ∧
    preSave y2 n2 (preSave y1 n1 a) = preSave y1 n1 a := by
  have h : strTruthy a.applicationNumber = true := by
    rw [hset]; simp [strTruthy, hs]
  have h1 : preSave y1 n1 a = a := by simp [preSave, h]
  exact ⟨by rw [h1, hset], h1, preSave_preSave y1 n1 y2 n2 a⟩
/-! ## The shape of a `processAdmission` call -/

theorem resolveUser_calls (env : Env) (db : Db) (a : Admission) :
    ∃ pre, (resolveUser env db a).1.calls = db.calls ++ pre ∧
      ∀ c ∈ pre, ∀ i, c ≠ StoreCall.admissionSave i := by
  rcases resolveUser_cases env db a with
    ⟨_, h⟩ | ⟨e, _, _, _, h⟩ | ⟨e, _, _, _, h⟩ | ⟨e, ad, _, _, _, _, h⟩ |
    ⟨e, ad, _, _, _, _, h⟩ <;>
  rw [h]
  · exact ⟨[], by simp, by simp⟩
  · exact ⟨[.userFindOne e], rfl, by simp⟩
  · exact ⟨[.userFindOne e], rfl, by simp⟩
  · exact ⟨[.userFindOne e, .userCreate (newUserInput ad e a.contactDetails)],
      by simp [Db.logged], by simp⟩
  · exact ⟨[.userFindOne e, .userCreate (newUserInput ad e a.contactDetails)],
      by simp [Db.logged], by simp⟩

/-- What `convert` returns: a thrown error with the applications untouched, or
the application linked to the student just created. -/
theorem convert_cases (env : Env) (db : Db) (a : Admission) :
    ((convert env db a).2 = none ∧ (convert env db a).1.admissions = db.admissions) ∨
    (∃ (ad : ApplicantDetails) (user : Option User) (db1 : Db),
      a.applicantDetails = some ad ∧
      resolveUser env db a = (db1, some user) ∧
      env.studentCreateOk (newStudentDoc a ad user) = true ∧
      convert env db a =
        ({ db1.logged (.studentCreate (newStudentDoc a ad user)) with
            students := db1.students ++ [{ _id := db1.nextId, doc := newStudentDoc a ad user }]
            nextId := db1.nextId + 1 },
          some { a with student := some db1.nextId })) := by
  have hadm := resolveUser_admissions env db a
  unfold convert
  generalize hr : resolveUser env db a = r at hadm ⊢
  obtain ⟨db1, ou⟩ := r
  cases ou with
  | none => exact Or.inl ⟨rfl, hadm⟩
  | some user =>
    simp only
    rcases createStudent_cases env db1 a user with
      ⟨_, hc⟩ | ⟨ad, _, _, hc⟩ | ⟨ad, had, hacc, hc⟩
    · rw [hc]; exact Or.inl ⟨rfl, hadm⟩
    · rw [hc]; exact Or.inl ⟨rfl, hadm⟩
    · rw [hc]; exact Or.inr ⟨ad, user, db1, had, rfl, hacc, rfl⟩

/-- Every call either ends before a save is attempted (400, 404, or 500 from
the conversion block), with the stored applications untouched, or it saves one
document: the found application with the body applied, linked to the new
student when conversion ran. -/
theorem processAdmission_shape (env : Env) (db : Db) (id : Nat) (body : ProcessBody) :
    ((processAdmission env db id body).1.admissions = db.admissions ∧
      (processAdmission env db id body).2.code ≠ 200) ∨
    (∃ (s : String) (found : Admission) (dbX : Db) (a : Admission),
      acceptedStatus body.status = some s ∧
      findAdmission db id = some found ∧
      dbX.admissions = db.admissions ∧
      (∃ pre, dbX.calls = db.calls ++ pre ∧ ∀ c ∈ pre, ∀ i, c ≠ StoreCall.admissionSave i) ∧
      (a = applyBody found s body ∨
        ∃ sid, a = { applyBody found s body with student := some sid }) ∧
      processAdmission env db id body = saveAndRespond env dbX a) := by
  cases hs : acceptedStatus body.status with
  | none =>
    left
    simp [processAdmission, hs]
  | some s =>
    cases hfound : findAdmission db id with
    | none =>
      left
      rw [processAdmission_eq_notFound env db id body s hs hfound]
      exact ⟨rfl, by simp⟩
    | some found =>
      rw [processAdmission_eq_found env db id body s found hs hfound]
      by_cases hcond : (s == "approved" && (applyBody found s body).student.isNone) = true
      · rw [if_pos hcond]
        rcases convert_cases env (db.logged (.admissionFindById id)) (applyBody found s body)
          with ⟨hnone, hadm⟩ | ⟨ad, user, db1, _, hr, _, hc⟩
        · left
          generalize convert env (db.logged (.admissionFindById id))
            (applyBody found s body) = c at hnone hadm ⊢
          obtain ⟨db2, o⟩ := c
          simp only at hnone
          subst hnone
          exact ⟨hadm, by simp⟩
        · right
          rw [hc]
          have hadm1 : db1.admissions = db.admissions := by
            have := resolveUser_admissions env (db.logged (.admissionFindById id))
              (applyBody found s body)
            rw [hr] at this
            exact this
          obtain ⟨pre, hpre, hno⟩ := resolveUser_calls env (db.logged (.admissionFindById id))
            (applyBody found s body)
          rw [hr] at hpre
          refine ⟨s, found,
            { db1.logged (.studentCreate (newStudentDoc (applyBody found s body) ad user)) with
              students := db1.students ++
                [{ _id := db1.nextId, doc := newStudentDoc (applyBody found s body) ad user }]
              nextId := db1.nextId + 1 },
            { applyBody found s body with student := some db1.nextId },
            rfl, rfl, hadm1, ?_, Or.inr ⟨db1.nextId, rfl⟩, rfl⟩
          refine ⟨[.admissionFindById id] ++ pre ++
            [.studentCreate (newStudentDoc (applyBody found s body) ad user)], ?_, ?_⟩
          · show db1.calls ++ _ = _
            rw [hpre]
            simp [Db.logged]
          · intro c hc i
            simp only [List.mem_append, List.mem_singleton] at hc
            rcases hc with (rfl | hc) | rfl
            · simp
            · exact hno c hc i
            · simp
      · rw [if_neg hcond]
        right
        exact ⟨s, found, db.logged (.admissionFindById id), applyBody found s body, rfl, rfl,
          rfl, ⟨[.admissionFindById id], rfl, by simp⟩, Or.inl rfl, rfl⟩
/-! ## The application number under later requests -/

theorem find?_map_replace_other (l : List Admission) (id other : Nat) (a1 : Admission)
    (h1 : a1._id = id) (hne : other ≠ id) :
    (l.map (fun x => if x._id == id then a1 else x)).find? (fun a => a._id == other)
      = l.find? (fun a => a._id == other) := by
  induction l with
  | nil => rfl
  | cons x xs ih =>
    rw [List.map_cons]
    by_cases hx : x._id = id
    · have hc : (x._id == id) = true := beq_iff_eq.mpr hx
      have hp1 : (a1._id == other) = false := by
        cases hb : (a1._id == other) with
        | false => rfl
        | true => exact absurd ((beq_iff_eq.mp hb).symm.trans h1) hne
      have hp2 : (x._id == other) = false := by
        cases hb : (x._id == other) with
        | false => rfl
        | true => exact absurd ((beq_iff_eq.mp hb).symm.trans hx) hne
      rw [if_pos hc]
      simp only [List.find?_cons, hp1, hp2, ih]
    · have hc : ¬ (x._id == id) = true := fun hh => hx (beq_iff_eq.mp hh)
      rw [if_neg hc]
      simp only [List.find?_cons, ih]

theorem find?_map_replace_same (l : List Admission) (id : Nat) (found a1 : Admission)
    (h : l.find? (fun a => a._id == id) = some found) (h1 : a1._id = id) :
    (l.map (fun x => if x._id == id then a1 else x)).find? (fun a => a._id == id)
      = some a1 := by
  have := find?_map_replace l id found a1 h h1
  rw [h1] at this
  exact this

theorem findAdmission_saveAndRespond_other (env : Env) (db : Db) (other : Nat)
    (a : Admission) (hne : other ≠ a._id) :
    findAdmission (saveAndRespond env db a).1 other = findAdmission db other := by
  rcases saveAndRespond_cases env db a with ⟨_, h⟩ | ⟨_, h⟩ <;> rw [h]
  · exact find?_map_replace_other db.admissions a._id other _ (preSave_id _ _ _) hne
  · rfl

theorem preSave_applicationNumber_of_set (y n : Nat) (a : Admission)
    (h : strTruthy a.applicationNumber = true) :
    (preSave y n a).applicationNumber = a.applicationNumber := by
  simp [preSave, h]

/-- C13, amended: for a stored application with a non-empty application
number, the number stored after any `processAdmission` request equals the
number before it, and so does the number stored after any `updateAdmission`
request whose body carries no `applicationNumber`; this holds for the
application the request names and for every other one. -/
theorem applicationNumber_preserved (env : Env) (wenv : WriteEnv) (courses : List Course)
    (db : Db) (id other : Nat) (pbody : ProcessBody) (ubody : UpdateBody)
    (a : Admission) (s : String)
    (hstored : findAdmission db other = some a)
    (hset : a.applicationNumber = some s) (hs : s ≠ "")
    (hnone : ubody.applicationNumber = none) :
    (∃ a1, findAdmission (processAdmission env db id pbody).1 other = some a1 ∧
      a1.applicationNumber = some s) ∧
    (∃ a2, findAdmission (updateAdmission wenv courses db id ubody).1 other = some a2 ∧
      a2.applicationNumber = some s) := by
  have htruthy : strTruthy a.applicationNumber = true := by
    rw [hset]; simp [strTruthy, hs]
  constructor
  · rcases processAdmission_shape env db id pbody with ⟨hadm, _⟩ |
      ⟨st, found, dbX, a0, _, hfound, hadm, _, ha, heq⟩
    · refine ⟨a, ?_, hset⟩
      unfold findAdmission; rw [hadm]; exact hstored
    · have hid : found._id = id := findAdmission_id db id found hfound
      have ha0 : a0._id = id ∧ a0.applicationNumber = found.applicationNumber := by
        rcases ha with rfl | ⟨sid, rfl⟩ <;> exact ⟨hid, rfl⟩
      rw [heq]
      by_cases hio : other = id
      · subst hio
        rw [hfound] at hstored
        obtain rfl : found = a := Option.some.inj hstored
        have hfX : findAdmission dbX other = some found := by
          unfold findAdmission; rw [hadm]; exact hfound
        rcases findAdmission_saveAndRespond env dbX other found a0 hfX ha0.1 with
          ⟨_, hfind⟩ | ⟨_, hfind⟩
        · refine ⟨_, hfind, ?_⟩
          rw [preSave_applicationNumber_of_set _ _ a0 (by rw [ha0.2]; exact htruthy), ha0.2,
            hset]
        · exact ⟨found, hfind, hset⟩
      · refine ⟨a, ?_, hset⟩
        rw [findAdmission_saveAndRespond_other env dbX other a0 (by rw [ha0.1]; exact hio)]
        unfold findAdmission; rw [hadm]; exact hstored
  · unfold updateAdmission
    cases hfound : findAdmission db id with
    | none => exact ⟨a, hstored, hset⟩
    | some found =>
      simp only
      split
      · exact ⟨a, hstored, hset⟩
      · split
        · by_cases hio : other = id
          · subst hio
            rw [hfound] at hstored
            obtain rfl : found = a := Option.some.inj hstored
            refine ⟨applyUpdate found ubody, ?_, ?_⟩
            · exact find?_map_replace_same db.admissions other found _ hfound
                (findAdmission_id db other found hfound)
            · simp [applyUpdate, hnone, hset]
          · refine ⟨a, ?_, hset⟩
            have := find?_map_replace_other db.admissions id other (applyUpdate found ubody)
              (findAdmission_id db id found hfound) hio
            unfold findAdmission
            rw [← hstored]
            exact this
        · exact ⟨a, hstored, hset⟩
/-! ## Deletion and the lookup of a course -/

theorem findAdmission_filter_ne (db : Db) (id : Nat) :
    (db.admissions.filter (fun x => x._id != id)).find? (fun a => a._id == id) = none := by
  rw [List.find?_eq_none]
  intro x hx
  have := (List.mem_filter.mp hx).2
  simpa using this

/-- C17, amended: an application that has a student reference and the status
'approved' is not removed and the answer is 400; one that has a student
reference and another status is removed, with answer 200, when the store
accepts the removal. -/
theorem deleteAdmission_converted (wenv : WriteEnv) (db : Db) (id sid : Nat)
    (found : Admission)
    (hfound : findAdmission db id = some found)
    (hstudent : found.student = some sid) :
    (found.status = "approved" →
      deleteAdmission wenv db id = (db, { code := 400, data := none })) ∧
    (found.status ≠ "approved" → wenv.admissionRemoveOk found = true →
      (deleteAdmission wenv db id).2.code = 200 ∧
      findAdmission (deleteAdmission wenv db id).1 id = none) := by
  constructor
  · intro hst
    simp [deleteAdmission, hfound, hst, hstudent]
  · intro hst hrm
    have hcond : ¬ (found.status == "approved" && found.student.isSome) = true := by
      simp [hst]
    have heq : deleteAdmission wenv db id =
        ({ db with admissions := db.admissions.filter (fun x => x._id != id) },
          { code := 200, data := none }) := by
      simp only [deleteAdmission, hfound]
      rw [if_neg hcond, if_pos hrm]
    rw [heq]
    exact ⟨rfl, findAdmission_filter_ne db id⟩

theorem findCourse_eq_none (courses : List Course) (c : Option Nat)
    (h : ∀ x ∈ courses, c ≠ some x._id) : findCourse courses c = none := by
  cases c with
  | none => rfl
  | some cid =>
    unfold findCourse
    simp only
    rw [List.find?_eq_none]
    intro x hx hb
    exact h x hx (by rw [beq_iff_eq.mp hb])

/-! ## The claims C11 to C20 at concrete inputs -/

/-- C11 as stated fails: in November 2025, with an empty collection, the hook
gives 'FEE-2511-0001', with the month after the year, where the pattern of the
claim gives 'FEE-25-0001'. -/
theorem feePreSave_receiptNumber_counterexample :
    (feePreSave 2025 10 0 draftFee).receiptNumber = some "FEE-2511-0001" ∧
    specReceiptNumber 2025 0 = "FEE-25-0001" ∧
    (feePreSave 2025 10 0 draftFee).receiptNumber ≠ some (specReceiptNumber 2025 0) := by
  have h1 : (feePreSave 2025 10 0 draftFee).receiptNumber = some "FEE-2511-0001" := by decide
  have h2 : specReceiptNumber 2025 0 = "FEE-25-0001" := by
    norm_num [specReceiptNumber, decimal, zeroPadded]
    decide
  refine ⟨h1, h2, ?_⟩
  rw [h1, h2]
  decide

/-- Witness of the amended C11: the first fee saved in November 2025. -/
theorem feePreSave_sets_receiptNumber_witness :
    (feePreSave 2025 10 0 draftFee).receiptNumber = some (datedReceiptNumber 2025 10 0) :=
  feePreSave_sets_receiptNumber 2025 10 0 draftFee (Or.inl rfl) (by decide)

/-- Witness of C12: Jane's numbered application through the hook, in 2025 on an
empty collection and again in 2026 on seven documents. -/
theorem preSave_keeps_applicationNumber_witness :
    (preSave 2025 0 jane).applicationNumber = some "ADM-25-0001" ∧
    preSave 2025 0 jane = jane ∧
    preSave 2026 7 (preSave 2025 0 jane) = preSave 2025 0 jane :=
  preSave_keeps_applicationNumber 2025 0 2026 7 jane "ADM-25-0001" rfl (by decide)

/-- C13 as stated fails: an `updateAdmission` request whose body carries an
`applicationNumber` is answered 200 and overwrites the stored number. -/
theorem applicationNumber_counterexample :
    findAdmission janeDb 1 = some jane ∧
    jane.applicationNumber = some "ADM-25-0001" ∧
    (updateAdmission writeAll [course101] janeDb 1 renumberUpdate).2.code = 200 ∧
    (findAdmission (updateAdmission writeAll [course101] janeDb 1 renumberUpdate).1 1).map
      (fun a => a.applicationNumber) = some (some "ADM-99-0042") := by
  decide

/-- Witness of the amended C13: Jane's application approved, and updated with
an empty body. -/
theorem applicationNumber_preserved_witness :
    (∃ a1, findAdmission
        (processAdmission acceptAll janeDb 1 (statusOnly (JsVal.str "approved"))).1 1
          = some a1 ∧
      a1.applicationNumber = some "ADM-25-0001") ∧
    (∃ a2, findAdmission (updateAdmission writeAll [course101] janeDb 1 emptyUpdate).1 1
          = some a2 ∧
      a2.applicationNumber = some "ADM-25-0001") :=
  applicationNumber_preserved acceptAll writeAll [course101] janeDb 1 1
    (statusOnly (JsVal.str "approved")) emptyUpdate jane "ADM-25-0001" rfl rfl (by decide) rfl

/-- C17 as stated fails: a converted application whose status is 'rejected' is
removed, and the answer is 200. -/
theorem deleteAdmission_converted_counterexample :
    findAdmission janeConvertedRejectedDb 1 = some janeConvertedRejected ∧
    janeConvertedRejected.student = some 7 ∧
    (deleteAdmission writeAll janeConvertedRejectedDb 1).2.code = 200 ∧
    (deleteAdmission writeAll janeConvertedRejectedDb 1).1.admissions = [] := by
  decide

/-- Witness of the amended C17: the converted, approved application. -/
theorem deleteAdmission_converted_witness :
    (janeConverted.status = "approved" →
      deleteAdmission writeAll janeConvertedDb 1
        = (janeConvertedDb, { code := 400, data := none })) ∧
    (janeConverted.status ≠ "approved" → writeAll.admissionRemoveOk janeConverted = true →
      (deleteAdmission writeAll janeConvertedDb 1).2.code = 200 ∧
      findAdmission (deleteAdmission writeAll janeConvertedDb 1).1 1 = none) :=
  deleteAdmission_converted writeAll janeConvertedDb 1 7 janeConverted rfl rfl

theorem accepted_not_declared : ∀ s ∈ acceptedStatuses, s ∉ declaredStatuses := by
  decide

/-! ## The role middleware -/

theorem rolesInclude_array (roles : List String) (role : String) :
    rolesInclude [.array roles] role = false := by
  simp [rolesInclude]

/-- C21 fails on the code: the middleware `authorize(['admin', 'staff'])`
answers 403 to every authenticated user, the roles 'admin' and 'staff'
included, and never calls `next`; the single-role form `authorize('admin')`
does let an admin through. -/
theorem adminAndStaff_rejects_everyone :
    (∀ u : AuthUser, adminAndStaff (some u) = Verdict.respond 403) ∧
    adminAndStaff (some { id := 1, role := "admin" }) = Verdict.respond 403 ∧
    adminAndStaff (some { id := 2, role := "staff" }) = Verdict.respond 403 ∧
    adminOnly (some { id := 1, role := "admin" }) = Verdict.next := by
  refine ⟨?_, ?_, ?_, ?_⟩
  · intro u
    simp [adminAndStaff, authorize, rolesInclude_array]
  · simp [adminAndStaff, authorize, rolesInclude_array]
  · simp [adminAndStaff, authorize, rolesInclude_array]
  · decide

/-! ## The application number depends on count and year only -/

/-- C23: two applications saved without an application number in the same
year, on the same document count, get the same application number from the
hook, whatever their other fields are. -/
theorem preSave_number_independent_of_fields (fullYear count : Nat) (a b : Admission)
    (ha : a.applicationNumber = none ∨ a.applicationNumber = some "")
    (hb : b.applicationNumber = none ∨ b.applicationNumber = some "") :
    (preSave fullYear count a).applicationNumber = (preSave fullYear count b).applicationNumber ∧
    (preSave fullYear count a).applicationNumber
      = some (generateApplicationNumber fullYear count) := by
  have hfa : strTruthy a.applicationNumber = false := by
    rcases ha with h | h <;> rw [h] <;> rfl
  have hfb : strTruthy b.applicationNumber = false := by
    rcases hb with h | h <;> rw [h] <;> rfl
  have h1 : (preSave fullYear count a).applicationNumber
      = some (generateApplicationNumber fullYear count) := by
    simp [preSave, hfa]
  have h2 : (preSave fullYear count b).applicationNumber
      = some (generateApplicationNumber fullYear count) := by
    simp [preSave, hfb]
  exact ⟨h1.trans h2.symm, h1⟩

/-! ## The total of `getAdmissionStats` -/

theorem statusCount_eq (admissions : List Admission) (y s : String) :
    statusCount admissions y s =
      if countWithStatus admissions y s = 0 then none
      else some (countWithStatus admissions y s) := rfl

/-- When each of 'approved', 'rejected' and 'pending' has an application in
the year, the total is the sum of the four counts. -/
theorem totalApplications_eq_spec (admissions : List Admission) (y : String)
    (ha : countWithStatus admissions y "approved" ≠ 0)
    (hr : countWithStatus admissions y "rejected" ≠ 0)
    (hp : countWithStatus admissions y "pending" ≠ 0) :
    totalApplications admissions y = specTotalApplications admissions y := by
  unfold totalApplications specTotalApplications
  simp only [statusCount_eq, ha, hr, hp, if_false, jsAdd, orZero]
  split <;> simp_all

/-- When one of 'approved', 'rejected' and 'pending' has no application in the
year, the total is 0. -/
theorem totalApplications_eq_zero (admissions : List Admission) (y : String)
    (h : countWithStatus admissions y "approved" = 0 ∨
      countWithStatus admissions y "rejected" = 0 ∨
      countWithStatus admissions y "pending" = 0) :
    totalApplications admissions y = 0 := by
  unfold totalApplications
  simp only [statusCount_eq]
  rcases h with h | h | h <;> simp only [h, if_true, jsAdd, orZero] <;>
    (repeat' split) <;> simp_all
/-! ## Grades -/

/-- C25 fails on the code: student 7 has a result of 35 marks, graded 'F' and
'Fail'; submitting 95 marks for that student is answered 200, and the stored
result has the 95 only under `marks`, with `marksObtained` still 35, the grade
still 'F' and the status still 'Fail', where the thresholds give 'A+' and
'Pass' for 95 out of 100. -/
theorem addExamResults_keeps_old_grade :
    addExamResults (fun _ => true) [7] [gradedExam] 1
        (some [{ student := 7, marks := some 95 }])
      = ([{ gradedExam with
            results :=
              [{ student := 7, marksObtained := some 35, marks := some 95,
                 grade := some "F", status := some "Fail" }] }], 200) ∧
    percentageGrade 95 gradedExam.totalMarks = "A+" ∧
    gradedExam.passingMarks ≤ 95 := by
  refine ⟨?_, ?_, ?_⟩
  · simp [addExamResults, gradedExam, examPreSave, submitResult, gradeResult, strTruthy]
  · norm_num [percentageGrade, gradedExam]
  · norm_num [gradedExam]
/-! ## Hostel occupancy -/

theorem addOccupant_within (rn : String) (sid : Nat) (rooms : List Room) (room : Room)
    (hinv : ∀ r ∈ rooms, r.occupants.length ≤ r.capacity)
    (hfind : rooms.find? (fun r => r.roomNumber == rn) = some room)
    (hfree : room.occupants.length < room.capacity) :
    ∀ r ∈ addOccupant rn sid rooms, r.occupants.length ≤ r.capacity := by
  induction rooms with
  | nil => simp at hfind
  | cons x xs ih =>
    unfold addOccupant
    by_cases hx : (x.roomNumber == rn) = true
    · rw [if_pos hx]
      simp only [List.find?_cons, hx] at hfind
      obtain rfl : x = room := Option.some.inj hfind
      intro r hr
      rcases List.mem_cons.mp hr with rfl | hr
      · simp only [List.length_append, List.length_singleton]
        omega
      · exact hinv r (List.mem_cons_of_mem _ hr)
    · rw [if_neg hx]
      have hxf : (x.roomNumber == rn) = false := by simpa using hx
      simp only [List.find?_cons, hxf] at hfind
      intro r hr
      rcases List.mem_cons.mp hr with rfl | hr
      · exact hinv r (List.mem_cons_self _ _)
      · exact ih (fun r hr => hinv r (List.mem_cons_of_mem _ hr)) hfind r hr

theorem hostelPreSave_within (h : Hostel)
    (hinv : ∀ r ∈ h.rooms, r.occupants.length ≤ r.capacity) :
    ∀ r ∈ (hostelPreSave true h).rooms, r.occupants.length ≤ r.capacity := by
  intro r hr
  simp only [hostelPreSave, if_true, List.mem_map] at hr
  obtain ⟨r0, hr0, rfl⟩ := hr
  exact hinv r0 hr0

theorem map_replace_within (hostels : List Hostel) (id : Nat) (saved : Hostel)
    (hinv : ∀ h ∈ hostels, ∀ r ∈ h.rooms, r.occupants.length ≤ r.capacity)
    (hsaved : ∀ r ∈ saved.rooms, r.occupants.length ≤ r.capacity) :
    ∀ h ∈ hostels.map (fun h => if h._id == id then saved else h),
      ∀ r ∈ h.rooms, r.occupants.length ≤ r.capacity := by
  intro h hh
  obtain ⟨h0, hh0, rfl⟩ := List.mem_map.mp hh
  split
  · exact hsaved
  · exact hinv h0 hh0

/-- C28: when every room of every stored hostel holds at most `capacity`
occupants, the same is true after any `assignRoom` call; and a call that names
an existing hostel, an existing student and a room that already holds
`capacity` occupants (or more) is answered 400 and leaves the hostels and the
students as they were. -/
theorem assignRoom_within_capacity (henv : HostelEnv) (db : HostelDb) (id : Nat)
    (studentId : Option Nat) (roomNumber : Option String)
    (hinv : ∀ h ∈ db.hostels, ∀ r ∈ h.rooms, r.occupants.length ≤ r.capacity) :
    (∀ h ∈ (assignRoom henv db id studentId roomNumber).1.hostels,
      ∀ r ∈ h.rooms, r.occupants.length ≤ r.capacity) ∧
    (∀ (sid : Nat) (rn : String) (hostel : Hostel) (student : HostelStudent) (room : Room),
      studentId = some sid → roomNumber = some rn → rn ≠ "" →
      db.hostels.find? (fun h => h._id == id) = some hostel →
      db.students.find? (fun s => s._id == sid) = some student →
      hostel.rooms.find? (fun r => r.roomNumber == rn) = some room →
      room.capacity ≤ room.occupants.length →
      assignRoom henv db id studentId roomNumber = (db, 400)) := by
  constructor
  · unfold assignRoom
    split
    · rename_i sid rn
      split
      · exact hinv
      · split
        · exact hinv
        · rename_i hostel hhostel
          split
          · exact hinv
          · split
            · exact hinv
            · rename_i room hroom
              split
              · exact hinv
              · rename_i hnotfull
                split
                · exact hinv
                · split
                  · exact hinv
                  · have hmem : hostel ∈ db.hostels := List.mem_of_find?_eq_some hhostel
                    have hsaved : ∀ r ∈ (hostelPreSave true
                        { hostel with rooms := addOccupant rn sid hostel.rooms }).rooms,
                        r.occupants.length ≤ r.capacity :=
                      hostelPreSave_within _
                        (addOccupant_within rn sid hostel.rooms room (hinv hostel hmem) hroom
                          (by simpa using hnotfull))
                    have hrep := map_replace_within db.hostels id _ hinv hsaved
                    simp only
                    split
                    · split
                      · exact hrep
                      · exact hrep
                    · exact hinv
    · exact hinv
  · intro sid rn hostel student room hs hr hne hh hst hroom hfull
    subst hs; subst hr
    have hne1 : (rn == "") = false := by simpa using hne
    simp only [assignRoom, hne1, hh, hst, hroom]
    simp [hfull]
/-! ## Fee handlers -/

theorem feePreSave_remaining (y m n : Nat) (f : Fee) (paid : Int)
    (hp : f.paidAmount = some paid) (hnz : f.amount ≠ 0) :
    (feePreSave y m n f).remainingAmount = some (f.amount - paid) := by
  unfold feePreSave
  by_cases h : strTruthy f.receiptNumber = true
  · simp [h, hp, hnz]
  · have hf : strTruthy f.receiptNumber = false := by simpa using h
    simp [hf, hp, hnz]

/-- What `createFee` stores for a non-zero amount: the hook sets
`remainingAmount` to the amount minus the paid amount (0 when the body gives
none), whatever the handler computed before. -/
theorem createFee_stored_remaining (fenv : FeeEnv) (students : List Student)
    (courses : List FeeCourse) (fees : List FeeRecord) (nextId : Nat) (body : CreateFeeBody)
    (amount : Int) (stored : List FeeRecord)
    (hamount : body.amount = some amount) (hnz : amount ≠ 0)
    (hok : createFee fenv students courses fees nextId body = (stored, 201)) :
    ∃ record, stored = fees ++ [record] ∧
      record.fee.remainingAmount = some (amount - body.paidAmount.getD 0) := by
  unfold createFee at hok
  split at hok
  · simp at hok
  · rw [hamount] at hok
    simp only at hok
    split at hok
    · simp only [Prod.mk.injEq, and_true] at hok
      refine ⟨_, hok.symm, ?_⟩
      exact feePreSave_remaining _ _ _ _ _ rfl hnz
    · simp at hok

/-- C26 fails on the code: for Jane's student record, with a course fee of
20000 and 3000 already paid in the year, a request with amount 5000 and no
`remainingAmount` makes the handler compute 20000 - (3000 + 5000) = 12000, and
the record that is stored has the `remainingAmount` 5000, the amount minus the
default paid amount 0. -/
theorem createFee_remaining_overwritten :
    requestedRemaining [pricedCourse] [janePaidFee] janeStudent janeFeeBody = some 12000 ∧
    (createFee feeAcceptAll [janeStudent] [pricedCourse] [janePaidFee] 31 janeFeeBody).2 = 201 ∧
    (createFee feeAcceptAll [janeStudent] [pricedCourse] [janePaidFee] 31 janeFeeBody).1.map
        (fun f => (f._id, f.fee.amount, f.fee.paidAmount, f.fee.remainingAmount))
      = [(30, 3000, some 3000, some 0), (31, 5000, some 0, some 5000)] := by
  decide

/-! ## The student document and the required paths -/

theorem passesRequired_false (doc : StudentDoc) : passesRequired doc = false := by
  unfold passesRequired
  decide

theorem convert_none_students (env : Env) (db : Db) (a : Admission)
    (h : (convert env db a).2 = none) : (convert env db a).1.students = db.students := by
  have hst := resolveUser_students env db a
  unfold convert at h ⊢
  generalize resolveUser env db a = r at hst h ⊢
  obtain ⟨db1, ou⟩ := r
  cases ou with
  | none => exact hst
  | some user =>
    simp only at h ⊢
    rcases createStudent_cases env db1 a user with
      ⟨_, hc⟩ | ⟨ad, _, _, hc⟩ | ⟨ad, _, _, hc⟩
    · rw [hc]; exact hst
    · rw [hc]; exact hst
    · rw [hc] at h; simp at h

/-- On a store that applies the `required` validators of the Student schema,
approving an unlinked application always ends in 500 and creates no student
record. -/
theorem processAdmission_requiredChecked (db : Db) (id : Nat) (body : ProcessBody)
    (found : Admission) (hstatus : body.status = JsVal.str "approved")
    (hfound : findAdmission db id = some found) (hunlinked : found.student = none) :
    (processAdmission requiredChecked db id body).2.code = 500 ∧
    (processAdmission requiredChecked db id body).1.students = db.students := by
  rw [processAdmission_eq_convert requiredChecked db id body found hstatus hfound hunlinked]
  rcases convert_cases requiredChecked (db.logged (.admissionFindById id))
      (applyBody found "approved" body) with ⟨hnone, _⟩ | ⟨ad, user, db1, _, _, hacc, _⟩
  · have hst := convert_none_students requiredChecked (db.logged (.admissionFindById id))
      (applyBody found "approved" body) hnone
    generalize convert requiredChecked (db.logged (.admissionFindById id))
      (applyBody found "approved" body) = c at hnone hst ⊢
    obtain ⟨db2, o⟩ := c
    simp only at hnone
    subst hnone
    exact ⟨rfl, hst⟩
  · have : passesRequired (newStudentDoc (applyBody found "approved" body) ad user) = true :=
      hacc
    rw [passesRequired_false] at this
    simp at this

/-- C29 fails on the code: of the nine required paths of the Student schema
the document of the conversion block has only `course` and `batch`; seven are
missing, so no such document passes the `required` validators, and on a store
that applies them the approval of Jane's application ends in 500 with the
account created and no student record. -/
theorem student_document_misses_required :
    studentRequiredPaths.filter (fun p => !studentDocKeys.contains p)
      = ["registrationNumber", "firstName", "lastName", "dateOfBirth", "gender", "email",
          "contactNumber"] ∧
    (∀ doc : StudentDoc, passesRequired doc = false) ∧
    (processAdmission requiredChecked janeDb 1 (statusOnly (JsVal.str "approved"))).2.code
      = 500 ∧
    (processAdmission requiredChecked janeDb 1 (statusOnly (JsVal.str "approved"))).1.students
      = [] ∧
    (processAdmission requiredChecked janeDb 1
      (statusOnly (JsVal.str "approved"))).1.users.map (fun u => u.email) = ["a@x.com"] := by
  refine ⟨by decide, passesRequired_false, by decide, by decide, by decide⟩

/-! ## The claims C21 to C30 at concrete inputs -/

/-- Witness of C23: Jane's draft and a draft of another applicant, for
another course. -/
theorem preSave_number_independent_of_fields_witness :
    (preSave 2025 4 janeDraft).applicationNumber
      = (preSave 2025 4
          { janeDraft with _id := 9, appliedCourse := 202, academicYear := "2026",
                           contactDetails := none }).applicationNumber ∧
    (preSave 2025 4 janeDraft).applicationNumber
      = some (generateApplicationNumber 2025 4) :=
  preSave_number_independent_of_fields 2025 4 janeDraft
    { janeDraft with _id := 9, appliedCourse := 202, academicYear := "2026",
                     contactDetails := none }
    (Or.inl rfl) (Or.inl rfl)

/-- C30 fails on the code: with two approved and one pending application in
2025 and no rejected one, `totalApplications` is 0, where the sum of the
per-status counts is 3. -/
theorem totalApplications_zero_without_rejected :
    statusCount statsAdmissions "2025" "approved" = some 2 ∧
    statusCount statsAdmissions "2025" "rejected" = none ∧
    statusCount statsAdmissions "2025" "pending" = some 1 ∧
    totalApplications statsAdmissions "2025" = 0 ∧
    specTotalApplications statsAdmissions "2025" = 3 := by
  decide

/-- Witness of C28: a full single room; student 8 is refused. -/
theorem assignRoom_within_capacity_witness :
    (∀ h ∈ (assignRoom { hostelSaveOk := fun _ => true, studentSaveOk := fun _ => true }
        fullHostelDb 1 (some 8) (some "101")).1.hostels,
      ∀ r ∈ h.rooms, r.occupants.length ≤ r.capacity) ∧
    (∀ (sid : Nat) (rn : String) (hostel : Hostel) (student : HostelStudent) (room : Room),
      some 8 = some sid → some "101" = some rn → rn ≠ "" →
      fullHostelDb.hostels.find? (fun h => h._id == 1) = some hostel →
      fullHostelDb.students.find? (fun s => s._id == sid) = some student →
      hostel.rooms.find? (fun r => r.roomNumber == rn) = some room →
      room.capacity ≤ room.occupants.length →
      assignRoom { hostelSaveOk := fun _ => true, studentSaveOk := fun _ => true }
        fullHostelDb 1 (some 8) (some "101") = (fullHostelDb, 400)) :=
  assignRoom_within_capacity _ fullHostelDb 1 (some 8) (some "101") (by decide)

/-- The two sides of C28 on concrete stores: a student is refused at the full
room 101 and is taken into the free room 102, which is then full. -/
theorem assignRoom_examples :
    assignRoom { hostelSaveOk := fun _ => true, studentSaveOk := fun _ => true }
      fullHostelDb 1 (some 8) (some "101") = (fullHostelDb, 400) ∧
    (assignRoom { hostelSaveOk := fun _ => true, studentSaveOk := fun _ => true }
      fullHostelDb 1 (some 8) (some "102")).2 = 200 ∧
    ((assignRoom { hostelSaveOk := fun _ => true, studentSaveOk := fun _ => true }
      fullHostelDb 1 (some 8) (some "102")).1.hostels.map
        (fun h => (h.occupiedCount, h.rooms.map
          (fun r => (r.roomNumber, r.occupiedCount, r.status)))))
      = [(2, [("101", 1, "Fully Occupied"), ("102", 1, "Fully Occupied")])] := by
  decide


/-! ## Conversion of a stored application -/

/-- On a document the Admission model hands over, the conversion block throws
before any store call: there is no `contactDetails`, so the account step is
skipped, and reading `applicantDetails.firstName` fails. -/
theorem convert_hydrate (env : Env) (db : Db) (s : StoredAdmission) (status : String)
    (body : ProcessBody) :
    convert env db (applyBody (hydrate s) status body) = (db, none) := by
  simp [convert, resolveUser, applicantEmail, createStudent, applyBody, hydrate]

/-- Approving a stored application that has no student is answered 500 after
the lookup of the application, whatever the store accepts. -/
theorem processAdmission_hydrate_approve (env : Env) (db : Db) (id : Nat) (body : ProcessBody)
    (s : StoredAdmission) (hstatus : body.status = JsVal.str "approved")
    (hfound : findAdmission db id = some (hydrate s)) (hunlinked : s.student = none) :
    processAdmission env db id body =
      (db.logged (.admissionFindById id), { code := 500, data := none }) := by
  rw [processAdmission_eq_convert env db id body (hydrate s) hstatus hfound hunlinked,
    convert_hydrate]

/-- C1 fails on the code: approving Jane's stored application, which has no
student, is answered 500 whatever the store accepts, and no student record is
created; the only store call is the lookup of the application. -/
theorem processAdmission_approve_creates_no_student (env : Env) :
    storedJane.student = none ∧
    (processAdmission env storedJaneDb 1 (statusOnly (JsVal.str "approved"))).2.code = 500 ∧
    (processAdmission env storedJaneDb 1 (statusOnly (JsVal.str "approved"))).1.students = [] ∧
    (processAdmission env storedJaneDb 1 (statusOnly (JsVal.str "approved"))).1.calls
      = [.admissionFindById 1] := by
  rw [processAdmission_hydrate_approve env storedJaneDb 1 _ storedJane rfl rfl rfl]
  exact ⟨rfl, rfl, rfl, rfl⟩

/-- C2 fails on the code: approving Jane's stored application twice in
sequence is answered 500 both times, whatever the store accepts; after the
second call there is no student record and no account, and the stored
application is the one before the calls, with no student reference. -/
theorem processAdmission_approve_twice_creates_none (env : Env) :
    (processAdmission env storedJaneDb 1 (statusOnly (JsVal.str "approved"))).2.code = 500 ∧
    (processAdmission env
      (processAdmission env storedJaneDb 1 (statusOnly (JsVal.str "approved"))).1 1
      (statusOnly (JsVal.str "approved"))).2.code = 500 ∧
    (processAdmission env
      (processAdmission env storedJaneDb 1 (statusOnly (JsVal.str "approved"))).1 1
      (statusOnly (JsVal.str "approved"))).1.students = [] ∧
    (processAdmission env
      (processAdmission env storedJaneDb 1 (statusOnly (JsVal.str "approved"))).1 1
      (statusOnly (JsVal.str "approved"))).1.users = [] ∧
    findAdmission (processAdmission env
      (processAdmission env storedJaneDb 1 (statusOnly (JsVal.str "approved"))).1 1
      (statusOnly (JsVal.str "approved"))).1 1 = some (hydrate storedJane) ∧
    (hydrate storedJane).student = none := by
  rw [processAdmission_hydrate_approve env storedJaneDb 1 _ storedJane rfl rfl rfl]
  rw [processAdmission_hydrate_approve env (storedJaneDb.logged (.admissionFindById 1)) 1
    (statusOnly (JsVal.str "approved")) storedJane rfl rfl rfl]
  exact ⟨rfl, rfl, rfl, rfl, rfl, rfl⟩

/-- C4 fails on the code: Jane's stored application carries the email of an
existing account, and approving it is answered 500 whatever the store accepts.
The account is unchanged and no account is created, but no lookup by email is
made and no student record is created, so nothing references the account. -/
theorem processAdmission_ignores_existing_account (env : Env) :
    storedJane.email = janeAccount.email ∧
    (processAdmission env storedJaneDbWithAccount 1
      (statusOnly (JsVal.str "approved"))).2.code = 500 ∧
    (processAdmission env storedJaneDbWithAccount 1
      (statusOnly (JsVal.str "approved"))).1.users = [janeAccount] ∧
    (processAdmission env storedJaneDbWithAccount 1
      (statusOnly (JsVal.str "approved"))).1.students = [] ∧
    (processAdmission env storedJaneDbWithAccount 1
      (statusOnly (JsVal.str "approved"))).1.calls = [.admissionFindById 1] := by
  rw [processAdmission_hydrate_approve env storedJaneDbWithAccount 1 _ storedJane rfl rfl rfl]
  exact ⟨rfl, rfl, rfl, rfl, rfl⟩

/-- C6 fails on the code: Jane's stored application carries an email no
account has, and approving it is answered 500 whatever the store accepts,
without a lookup by email and without a `User.create`: no account exists
after the call. -/
theorem processAdmission_creates_no_account (env : Env) :
    storedJane.email = "a@x.com" ∧
    storedJaneDb.users = [] ∧
    (processAdmission env storedJaneDb 1 (statusOnly (JsVal.str "approved"))).2.code = 500 ∧
    (processAdmission env storedJaneDb 1 (statusOnly (JsVal.str "approved"))).1.users = [] ∧
    (processAdmission env storedJaneDb 1 (statusOnly (JsVal.str "approved"))).1.calls
      = [.admissionFindById 1] := by
  rw [processAdmission_hydrate_approve env storedJaneDb 1 _ storedJane rfl rfl rfl]
  exact ⟨rfl, rfl, rfl, rfl, rfl⟩

/-! ## What a call stores -/

theorem acceptedStatus_mem (v : JsVal) (s : String) (h : acceptedStatus v = some s) :
    s ∈ acceptedStatuses ∧ v = JsVal.str s := by
  cases hb : v with
  | str t =>
    rw [hb] at h
    by_cases ht : t ∈ acceptedStatuses
    · simp [acceptedStatus, ht] at h
      rw [← h]; exact ⟨ht, rfl⟩
    · simp [acceptedStatus, ht] at h
  | _ => rw [hb] at h; simp [acceptedStatus] at h

/-- The three ways a call on a stored application goes on: no conversion and
a save; a conversion that throws; a conversion that creates the student, and
a save of the linked application. -/
theorem processAdmission_found_cases (env : Env) (db : Db) (id : Nat) (body : ProcessBody)
    (s : String) (found : Admission) (hs : acceptedStatus body.status = some s)
    (hfound : findAdmission db id = some found) :
    ((s ≠ "approved" ∨ found.student ≠ none) ∧
      processAdmission env db id body =
        saveAndRespond env (db.logged (.admissionFindById id)) (applyBody found s body)) ∨
    (s = "approved" ∧ found.student = none ∧
      (convert env (db.logged (.admissionFindById id)) (applyBody found s body)).2 = none ∧
      processAdmission env db id body =
        ((convert env (db.logged (.admissionFindById id)) (applyBody found s body)).1,
          { code := 500, data := none })) ∨
    (s = "approved" ∧ found.student = none ∧
      ∃ (ad : ApplicantDetails) (user : Option User) (db1 : Db),
        found.applicantDetails = some ad ∧
        resolveUser env (db.logged (.admissionFindById id)) (applyBody found s body)
          = (db1, some user) ∧
        env.studentCreateOk (newStudentDoc (applyBody found s body) ad user) = true ∧
        processAdmission env db id body =
          saveAndRespond env
            { db1.logged (.studentCreate (newStudentDoc (applyBody found s body) ad user)) with
              students := db1.students ++
                [{ _id := db1.nextId, doc := newStudentDoc (applyBody found s body) ad user }]
              nextId := db1.nextId + 1 }
            { applyBody found s body with student := some db1.nextId }) := by
  rw [processAdmission_eq_found env db id body s found hs hfound]
  by_cases hcond : (s == "approved" && (applyBody found s body).student.isNone) = true
  · rw [if_pos hcond]
    have hs1 : s = "approved" := by
      simp only [Bool.and_eq_true, beq_iff_eq] at hcond
      exact hcond.1
    have hun : found.student = none := by
      simp only [Bool.and_eq_true, Option.isNone_iff_eq_none] at hcond
      exact hcond.2
    right
    rcases convert_cases env (db.logged (.admissionFindById id)) (applyBody found s body)
      with ⟨hnone, _⟩ | ⟨ad, user, db1, had, hr, hacc, hc⟩
    · left
      refine ⟨hs1, hun, hnone, ?_⟩
      generalize convert env (db.logged (.admissionFindById id))
        (applyBody found s body) = c at hnone ⊢
      obtain ⟨db2, o⟩ := c
      simp only at hnone
      subst hnone
      rfl
    · right
      refine ⟨hs1, hun, ad, user, db1, had, hr, hacc, ?_⟩
      rw [hc]
  · rw [if_neg hcond]
    left
    refine ⟨?_, rfl⟩
    by_cases h1 : s = "approved"
    · right
      intro hnone
      apply hcond
      simp [h1, applyBody, hnone]
    · exact Or.inl h1

theorem convert_admissions (env : Env) (db : Db) (a : Admission) :
    (convert env db a).1.admissions = db.admissions := by
  rcases convert_cases env db a with ⟨_, h⟩ | ⟨ad, user, db1, _, hr, _, hc⟩
  · exact h
  · rw [hc]
    have := resolveUser_admissions env db a
    rw [hr] at this
    exact this

/-- The application stored under the id after a call that found one: the one
found, when nothing was written, or the hook's output on the document the
store accepted, which is the found application with the body applied, linked
to the student the call created when conversion ran. -/
theorem processAdmission_stored (env : Env) (db : Db) (id : Nat) (body : ProcessBody)
    (s : String) (found : Admission) (hs : acceptedStatus body.status = some s)
    (hfound : findAdmission db id = some found) :
    (findAdmission (processAdmission env db id body).1 id = some found ∧
      (processAdmission env db id body).1.admissions = db.admissions ∧
      (processAdmission env db id body).2 = { code := 500, data := none }) ∨
    (∃ a : Admission,
      env.admissionSaveOk a = true ∧
      findAdmission (processAdmission env db id body).1 id
        = some (preSave env.year db.admissions.length a) ∧
      (processAdmission env db id body).1.admissions = db.admissions.map
        (fun x => if x._id == id then preSave env.year db.admissions.length a else x) ∧
      (processAdmission env db id body).2
        = { code := 200, data := some (preSave env.year db.admissions.length a) } ∧
      ((a = applyBody found s body ∧ (s ≠ "approved" ∨ found.student ≠ none) ∧
          (processAdmission env db id body).1.students = db.students) ∨
        (s = "approved" ∧ found.student = none ∧
          ∃ st : Student, (processAdmission env db id body).1.students = db.students ++ [st] ∧
            a = { applyBody found s body with student := some st._id }))) := by
  have hid : found._id = id := findAdmission_id db id found hfound
  rcases processAdmission_found_cases env db id body s found hs hfound with
    ⟨hno, heq⟩ | ⟨hs1, hun, hnone, heq⟩ | ⟨hs1, hun, ad, user, db1, had, hr, _, heq⟩
  · rw [heq]
    rcases saveAndRespond_cases env (db.logged (.admissionFindById id)) (applyBody found s body)
      with ⟨hacc, h⟩ | ⟨_, h⟩
    · right
      rw [h]
      refine ⟨applyBody found s body, hacc, ?_, ?_, rfl, Or.inl ⟨rfl, hno, rfl⟩⟩
      · have := find?_map_replace_same db.admissions id found
          (preSave env.year db.admissions.length (applyBody found s body)) hfound
          (by rw [preSave_id]; exact hid)
        have hid2 : (applyBody found s body)._id = id := hid
        simpa only [findAdmission, Db.logged, hid2] using this
      · have hid2 : (applyBody found s body)._id = id := hid
        simp only [Db.logged, hid2]
    · left
      rw [h]
      exact ⟨hfound, rfl, rfl⟩
  · left
    rw [heq]
    have hadm := convert_admissions env (db.logged (.admissionFindById id))
      (applyBody found s body)
    refine ⟨?_, hadm, rfl⟩
    unfold findAdmission
    rw [hadm]
    exact hfound
  · rw [heq]
    have hadm1 : db1.admissions = db.admissions := by
      have := resolveUser_admissions env (db.logged (.admissionFindById id))
        (applyBody found s body)
      rw [hr] at this
      exact this
    have hst1 : db1.students = db.students := by
      have := resolveUser_students env (db.logged (.admissionFindById id))
        (applyBody found s body)
      rw [hr] at this
      exact this
    generalize hl : ({ applyBody found s body with student := some db1.nextId } : Admission)
      = linked
    have hid2 : linked._id = id := by rw [← hl]; exact hid
    rcases saveAndRespond_cases env
        { db1.logged (.studentCreate (newStudentDoc (applyBody found s body) ad user)) with
          students := db1.students ++
            [{ _id := db1.nextId, doc := newStudentDoc (applyBody found s body) ad user }]
          nextId := db1.nextId + 1 }
        linked
      with ⟨hacc, h⟩ | ⟨_, h⟩
    · right
      rw [h]
      refine ⟨linked, hacc, ?_, ?_, ?_,
        Or.inr ⟨hs1, hun,
          { _id := db1.nextId, doc := newStudentDoc (applyBody found s body) ad user }, ?_,
          hl.symm⟩⟩
      · have := find?_map_replace_same db.admissions id found
          (preSave env.year db.admissions.length linked) hfound
          (by rw [preSave_id]; exact hid2)
        simpa only [findAdmission, Db.logged, hid2, hadm1] using this
      · simp only [Db.logged, hid2, hadm1]
      · simp only [Db.logged, hadm1]
      · simp only [Db.logged, hst1]
    · left
      rw [h]
      refine ⟨?_, hadm1, rfl⟩
      unfold findAdmission
      simp only [Db.logged, hadm1]
      exact hfound

theorem convert_calls (env : Env) (db : Db) (a : Admission) :
    ∃ pre, (convert env db a).1.calls = db.calls ++ pre ∧
      ∀ c ∈ pre, ∀ i, c ≠ StoreCall.admissionSave i := by
  obtain ⟨pre, hpre, hno⟩ := resolveUser_calls env db a
  unfold convert
  generalize hr : resolveUser env db a = r at hpre ⊢
  obtain ⟨db1, ou⟩ := r
  simp only at hpre
  cases ou with
  | none => exact ⟨pre, hpre, hno⟩
  | some user =>
    simp only
    rcases createStudent_cases env db1 a user with ⟨_, hc⟩ | ⟨ad, _, _, hc⟩ | ⟨ad, _, _, hc⟩ <;>
    rw [hc]
    · exact ⟨pre, hpre, hno⟩
    · refine ⟨pre ++ [.studentCreate (newStudentDoc a ad user)], ?_, ?_⟩
      · show db1.calls ++ _ = _
        rw [hpre, List.append_assoc]
      · intro c hc i
        simp only [List.mem_append, List.mem_singleton] at hc
        rcases hc with hc | rfl
        · exact hno c hc i
        · simp
    · refine ⟨pre ++ [.studentCreate (newStudentDoc a ad user)], ?_, ?_⟩
      · show db1.calls ++ _ = _
        rw [hpre, List.append_assoc]
      · intro c hc i
        simp only [List.mem_append, List.mem_singleton] at hc
        rcases hc with hc | rfl
        · exact hno c hc i
        · simp

/-- Every call makes at most one save of an application, and a save is the
last store call of the call. -/
theorem processAdmission_calls (env : Env) (db : Db) (id : Nat) (body : ProcessBody) :
    ∃ pre, (∀ c ∈ pre, ∀ i, c ≠ StoreCall.admissionSave i) ∧
      ((processAdmission env db id body).1.calls = db.calls ++ pre ∨
        (processAdmission env db id body).1.calls = db.calls ++ pre ++ [.admissionSave id]) := by
  cases hs : acceptedStatus body.status with
  | none =>
    refine ⟨[], by simp, Or.inl ?_⟩
    simp [processAdmission, hs]
  | some s =>
    cases hfound : findAdmission db id with
    | none =>
      rw [processAdmission_eq_notFound env db id body s hs hfound]
      exact ⟨[.admissionFindById id], by simp, Or.inl rfl⟩
    | some found =>
      have hid : found._id = id := findAdmission_id db id found hfound
      rcases processAdmission_found_cases env db id body s found hs hfound with
        ⟨_, heq⟩ | ⟨_, _, _, heq⟩ | ⟨_, _, ad, user, db1, _, hr, _, heq⟩
      · rw [heq, saveAndRespond_calls]
        refine ⟨[.admissionFindById id], by simp, Or.inr ?_⟩
        have hid2 : (applyBody found s body)._id = id := hid
        rw [hid2]
        rfl
      · rw [heq]
        obtain ⟨pre, hpre, hno⟩ := convert_calls env (db.logged (.admissionFindById id))
          (applyBody found s body)
        refine ⟨[.admissionFindById id] ++ pre, ?_, Or.inl ?_⟩
        · intro c hc i
          simp only [List.mem_append, List.mem_singleton] at hc
          rcases hc with rfl | hc
          · simp
          · exact hno c hc i
        · show (convert env (db.logged (.admissionFindById id)) (applyBody found s body)).1.calls
            = _
          rw [hpre]
          simp [Db.logged]
      · rw [heq, saveAndRespond_calls]
        obtain ⟨pre, hpre, hno⟩ := resolveUser_calls env (db.logged (.admissionFindById id))
          (applyBody found s body)
        rw [hr] at hpre
        refine ⟨[.admissionFindById id] ++ pre ++
          [.studentCreate (newStudentDoc (applyBody found s body) ad user)], ?_, Or.inr ?_⟩
        · intro c hc i
          simp only [List.mem_append, List.mem_singleton] at hc
          rcases hc with (rfl | hc) | rfl
          · simp
          · exact hno c hc i
          · simp
        · have hid2 : ({ applyBody found s body with student := some db1.nextId } :
              Admission)._id = id := hid
          rw [hid2]
          show (db1.calls ++ _) ++ _ = _
          simp only at hpre
          rw [hpre]
          simp [Db.logged]

/-- On a store that applies the `enum` of the schema's `status` path no call
writes an application and none answers 200: the status a call would save is
one of the four accepted strings, none of which the schema declares. -/
theorem processAdmission_unchanged_of_enum (env : Env) (db : Db) (id : Nat)
    (body : ProcessBody)
    (henum : ∀ a : Admission, env.admissionSaveOk a = true → a.status ∈ declaredStatuses) :
    (processAdmission env db id body).1.admissions = db.admissions ∧
    (processAdmission env db id body).2.code ≠ 200 ∧
    (processAdmission env db id body).2.data = none := by
  cases hs : acceptedStatus body.status with
  | none => simp [processAdmission, hs]
  | some s =>
    cases hfound : findAdmission db id with
    | none =>
      rw [processAdmission_eq_notFound env db id body s hs hfound]
      exact ⟨rfl, by simp, rfl⟩
    | some found =>
      rcases processAdmission_stored env db id body s found hs hfound with
        ⟨_, hadm, hresp⟩ | ⟨a, hacc, _, _, _, hcase⟩
      · rw [hresp]
        exact ⟨hadm, by simp, rfl⟩
      · exfalso
        have hst : a.status = s := by
          rcases hcase with ⟨rfl, _, _⟩ | ⟨_, _, st, _, rfl⟩ <;> rfl
        have hmem := henum a hacc
        rw [hst] at hmem
        exact accepted_not_declared s (acceptedStatus_mem _ _ hs).1 hmem

/-! ## The conversion claims on every store -/

/-- C5: for an application without an applicant email (`contactDetails`
missing, or its email missing or empty), a call makes no account lookup and no
account creation and leaves the account collection unchanged; every student
document it hands to `Student.create`, and every student record it adds to the
store, whether or not the call goes on to succeed, has a null user
reference. -/
theorem processAdmission_without_email (env : Env) (db : Db) (id : Nat)
    (body : ProcessBody) (found : Admission)
    (hfound : findAdmission db id = some found)
    (hnoemail : found.contactDetails = none ∨
      ∃ c, found.contactDetails = some c ∧ (c.email = none ∨ c.email = some "")) :
    (processAdmission env db id body).1.users = db.users ∧
    (∃ rest, (processAdmission env db id body).1.calls = db.calls ++ rest ∧
      ∀ c ∈ rest, (∀ e, c ≠ StoreCall.userFindOne e) ∧ (∀ i, c ≠ StoreCall.userCreate i) ∧
        (∀ doc, c = StoreCall.studentCreate doc → doc.user = none)) ∧
    (∃ created, (processAdmission env db id body).1.students = db.students ++ created ∧
      ∀ st ∈ created, st.doc.user = none) := by
  cases hs : acceptedStatus body.status with
  | none =>
    have h : processAdmission env db id body = (db, { code := 400, data := none }) := by
      simp [processAdmission, hs]
    rw [h]
    exact ⟨rfl, ⟨[], by simp, by simp⟩, ⟨[], by simp, by simp⟩⟩
  | some s =>
    have hid : found._id = id := findAdmission_id db id found hfound
    have he : applicantEmail (applyBody found s body) = none := by
      rw [applicantEmail_applyBody]; exact applicantEmail_eq_none found hnoemail
    have hr : resolveUser env (db.logged (.admissionFindById id))
        (applyBody found s body) = (db.logged (.admissionFindById id), some none) := by
      simp only [resolveUser, he]
    rcases processAdmission_found_cases env db id body s found hs hfound with
      ⟨_, heq⟩ | ⟨_, _, _, heq⟩ | ⟨_, _, ad, user, db1, _, hr1, _, heq⟩
    · rw [heq]
      refine ⟨saveAndRespond_users _ _ _, ⟨[.admissionFindById id,
        .admissionSave (applyBody found s body)._id], ?_, by simp⟩, ⟨[], ?_, by simp⟩⟩
      · rw [saveAndRespond_calls]; simp [Db.logged]
      · rw [saveAndRespond_students]; simp [Db.logged]
    · rw [heq]
      simp only [convert, hr]
      rcases createStudent_cases env (db.logged (.admissionFindById id))
          (applyBody found s body) none with ⟨_, h⟩ | ⟨ad, _, _, h⟩ | ⟨ad, _, _, h⟩ <;>
      rw [h] <;> simp only
      · exact ⟨rfl, ⟨[.admissionFindById id], rfl, by simp⟩, ⟨[], by simp [Db.logged], by simp⟩⟩
      · refine ⟨rfl, ⟨[.admissionFindById id,
          .studentCreate (newStudentDoc (applyBody found s body) ad none)],
          by simp [Db.logged], ?_⟩, ⟨[], by simp [Db.logged], by simp⟩⟩
        intro c hc
        simp only [List.mem_cons, List.mem_singleton, List.not_mem_nil, or_false] at hc
        rcases hc with rfl | rfl
        · simp
        · refine ⟨by simp, by simp, ?_⟩
          intro doc hdoc
          injection hdoc with hdoc
          rw [← hdoc]
          rfl
      · refine ⟨rfl, ⟨[.admissionFindById id,
          .studentCreate (newStudentDoc (applyBody found s body) ad none)],
          by simp [Db.logged], ?_⟩,
          ⟨[{ _id := (db.logged (.admissionFindById id)).nextId,
              doc := newStudentDoc (applyBody found s body) ad none }], rfl, ?_⟩⟩
        · intro c hc
          simp only [List.mem_cons, List.mem_singleton, List.not_mem_nil, or_false] at hc
          rcases hc with rfl | rfl
          · simp
          · refine ⟨by simp, by simp, ?_⟩
            intro doc hdoc
            injection hdoc with hdoc
            rw [← hdoc]
            rfl
        · intro st hst
          simp only [List.mem_singleton] at hst
          rw [hst]
          rfl
    · rw [hr] at hr1
      simp only [Prod.mk.injEq, Option.some.injEq] at hr1
      obtain ⟨hd, hu1⟩ := hr1
      subst hd; subst hu1
      rw [heq]
      refine ⟨saveAndRespond_users _ _ _, ⟨[.admissionFindById id,
        .studentCreate (newStudentDoc (applyBody found s body) ad none),
        .admissionSave id], ?_, ?_⟩,
        ⟨[{ _id := (db.logged (.admissionFindById id)).nextId,
            doc := newStudentDoc (applyBody found s body) ad none }], ?_, ?_⟩⟩
      · rw [saveAndRespond_calls]
        have hid2 : ({ applyBody found s body with
            student := some (db.logged (.admissionFindById id)).nextId } : Admission)._id
              = id := hid
        rw [hid2]
        simp [Db.logged]
      · intro c hc
        simp only [List.mem_cons, List.mem_singleton, List.not_mem_nil, or_false] at hc
        rcases hc with rfl | rfl | rfl
        · simp
        · refine ⟨by simp, by simp, ?_⟩
          intro doc hdoc
          injection hdoc with hdoc
          rw [← hdoc]
          rfl
        · simp
      · rw [saveAndRespond_students]
        rfl
      · intro st hst
        simp only [List.mem_singleton] at hst
        rw [hst]
        rfl

/-- C7: a call with status 'approved' keeps the invariant that every stored
application with status 'approved' has a student reference; when the call is
answered 200 the stored application, which is the one answered, has status
'approved' and a student reference; and when the application had no reference
before the call and has one after it, the call created exactly one student
record and the reference is the id of that record. -/
theorem processAdmission_approved_links_student (env : Env) (db : Db) (id : Nat)
    (body : ProcessBody)
    (hstatus : body.status = JsVal.str "approved")
    (hinv : ∀ a ∈ db.admissions, a.status = "approved" → a.student ≠ none) :
    (∀ a ∈ (processAdmission env db id body).1.admissions,
      a.status = "approved" → a.student ≠ none) ∧
    ((processAdmission env db id body).2.code = 200 →
      ∃ stored : Admission,
        findAdmission (processAdmission env db id body).1 id = some stored ∧
        (processAdmission env db id body).2.data = some stored ∧
        stored.status = "approved" ∧ stored.student ≠ none) ∧
    (∀ found stored : Admission,
      findAdmission db id = some found → found.student = none →
      findAdmission (processAdmission env db id body).1 id = some stored →
      stored.student ≠ none →
      ∃ st : Student, (processAdmission env db id body).1.students = db.students ++ [st] ∧
        stored.student = some st._id) := by
  have hs : acceptedStatus body.status = some "approved" :=
    acceptedStatus_eq_some _ _ (by decide) hstatus
  cases hfound : findAdmission db id with
  | none =>
    rw [processAdmission_eq_notFound env db id body _ hs hfound]
    refine ⟨hinv, by simp, ?_⟩
    intro found stored hf
    simp at hf
  | some found =>
    rcases processAdmission_stored env db id body "approved" found hs hfound with
      ⟨hfind, hadm, hresp⟩ | ⟨a, _, hfind, hadm, hresp, hcase⟩
    · refine ⟨by rw [hadm]; exact hinv, by rw [hresp]; simp, ?_⟩
      intro f stored hf hun hst hne
      obtain rfl : found = f := Option.some.inj hf
      rw [hfind] at hst
      obtain rfl : found = stored := Option.some.inj hst
      exact absurd hun hne
    · have hstud : a.student ≠ none := by
        rcases hcase with ⟨rfl, hno, _⟩ | ⟨_, _, st, _, rfl⟩
        · rcases hno with h | h
          · exact absurd rfl h
          · exact h
        · simp
      have hast : a.status = "approved" := by
        rcases hcase with ⟨rfl, _, _⟩ | ⟨_, _, st, _, rfl⟩ <;> rfl
      refine ⟨?_, ?_, ?_⟩
      · rw [hadm]
        intro x hx hxs
        simp only [List.mem_map] at hx
        obtain ⟨y, hy, hxy⟩ := hx
        by_cases hc : (y._id == id) = true
        · rw [if_pos hc] at hxy
          rw [← hxy, preSave_student]
          exact hstud
        · rw [if_neg hc] at hxy
          rw [← hxy]
          rw [← hxy] at hxs
          exact hinv y hy hxs
      · intro _
        refine ⟨_, hfind, by rw [hresp], ?_, ?_⟩
        · rw [preSave_status]; exact hast
        · rw [preSave_student]; exact hstud
      · intro f stored hf hun hst hne
        obtain rfl : found = f := Option.some.inj hf
        rw [hfind] at hst
        obtain rfl := Option.some.inj hst
        rcases hcase with ⟨_, hno, _⟩ | ⟨_, _, st, hstudents, ha⟩
        · rcases hno with h | h
          · exact absurd rfl h
          · exact absurd hun h
        · refine ⟨st, hstudents, ?_⟩
          rw [preSave_student, ha]

/-- C5 at a concrete input: approving Jane's stored application, which has no
`contactDetails`, on the store with the repository's validators. -/
theorem processAdmission_without_email_witness :
    findAdmission storedJaneDb 1 = some (hydrate storedJane) ∧
    (hydrate storedJane).contactDetails = none ∧
    (processAdmission schemaStore storedJaneDb 1 (statusOnly (JsVal.str "approved"))).1.users
      = storedJaneDb.users ∧
    (∃ rest,
      (processAdmission schemaStore storedJaneDb 1 (statusOnly (JsVal.str "approved"))).1.calls
        = storedJaneDb.calls ++ rest ∧
      ∀ c ∈ rest, (∀ e, c ≠ StoreCall.userFindOne e) ∧ (∀ i, c ≠ StoreCall.userCreate i) ∧
        (∀ doc, c = StoreCall.studentCreate doc → doc.user = none)) ∧
    (∃ created,
      (processAdmission schemaStore storedJaneDb 1
        (statusOnly (JsVal.str "approved"))).1.students = storedJaneDb.students ++ created ∧
      ∀ st ∈ created, st.doc.user = none) :=
  ⟨rfl, rfl,
    processAdmission_without_email schemaStore storedJaneDb 1 (statusOnly (JsVal.str "approved"))
      (hydrate storedJane) rfl (Or.inl rfl)⟩

/-- C7 at a concrete input: approving Jane's stored application, whose status
is 'Pending', on the store with the repository's validators. -/
theorem processAdmission_approved_links_student_witness :
    (statusOnly (JsVal.str "approved")).status = JsVal.str "approved" ∧
    (∀ a ∈ storedJaneDb.admissions, a.status = "approved" → a.student ≠ none) ∧
    (∀ a ∈ (processAdmission schemaStore storedJaneDb 1
        (statusOnly (JsVal.str "approved"))).1.admissions,
      a.status = "approved" → a.student ≠ none) :=
  ⟨rfl, by decide,
    (processAdmission_approved_links_student schemaStore storedJaneDb 1
      (statusOnly (JsVal.str "approved")) rfl (by decide)).1⟩

/-! ## The status and the optional fields -/

/-- C15 fails on the code: on the store with the repository's validators, a
call on Jane's stored application with any of the four accepted statuses is
answered 500, and the stored application keeps its status 'Pending'. -/
theorem processAdmission_status_not_saved :
    (hydrate storedJane).status = "Pending" ∧
    ((processAdmission schemaStore storedJaneDb 1 (statusOnly (JsVal.str "approved"))).2.code = 500 ∧
      findAdmission (processAdmission schemaStore storedJaneDb 1
        (statusOnly (JsVal.str "approved"))).1 1 = some (hydrate storedJane)) ∧
    ((processAdmission schemaStore storedJaneDb 1 (statusOnly (JsVal.str "rejected"))).2.code = 500 ∧
      findAdmission (processAdmission schemaStore storedJaneDb 1
        (statusOnly (JsVal.str "rejected"))).1 1 = some (hydrate storedJane)) ∧
    ((processAdmission schemaStore storedJaneDb 1 (statusOnly (JsVal.str "pending"))).2.code = 500 ∧
      findAdmission (processAdmission schemaStore storedJaneDb 1
        (statusOnly (JsVal.str "pending"))).1 1 = some (hydrate storedJane)) ∧
    ((processAdmission schemaStore storedJaneDb 1
        (statusOnly (JsVal.str "interview_scheduled"))).2.code = 500 ∧
      findAdmission (processAdmission schemaStore storedJaneDb 1
        (statusOnly (JsVal.str "interview_scheduled"))).1 1 = some (hydrate storedJane)) := by
  decide

/-- C16 as stated fails: on the store with the repository's validators, a
request that supplies the empty string as `remarks`, and a request that
supplies the remark 'late documents', both leave the stored application with
its previous remark 'documents pending'. -/
theorem processAdmission_optional_fields_counterexample :
    clearingBody.remarks = JsVal.str "" ∧
    (findAdmission (processAdmission schemaStore storedJaneRemarkedDb 1 clearingBody).1 1).map
      (fun a => a.remarks) = some (JsVal.str "documents pending") ∧
    remarkBody.remarks = JsVal.str "late documents" ∧
    (findAdmission (processAdmission schemaStore storedJaneRemarkedDb 1 remarkBody).1 1).map
      (fun a => a.remarks) = some (JsVal.str "documents pending") := by
  decide

theorem preSave_fields (y n : Nat) (x : Admission) :
    (preSave y n x).remarks = x.remarks ∧
    (preSave y n x).interviewDetails = x.interviewDetails ∧
    (preSave y n x).admissionFee = x.admissionFee := by
  unfold preSave
  split <;> exact ⟨rfl, rfl, rfl⟩

/-- C16, amended: for each of `remarks`, `interviewDetails` and `admissionFee`,
when the request omits the field or carries a falsy value for it (empty
string, 0, null, false), the application stored after the call has the value
it had before; and the call makes at most one save of an application, as its
last store call. -/
theorem processAdmission_optional_fields (env : Env) (db : Db) (id : Nat)
    (body : ProcessBody) (found : Admission)
    (hfound : findAdmission db id = some found) :
    ∃ (stored : Admission) (pre : List StoreCall),
      findAdmission (processAdmission env db id body).1 id = some stored ∧
      (body.remarks.truthy = false → stored.remarks = found.remarks) ∧
      (body.interviewDetails.truthy = false →
        stored.interviewDetails = found.interviewDetails) ∧
      (body.admissionFee.truthy = false → stored.admissionFee = found.admissionFee) ∧
      (∀ c ∈ pre, ∀ i, c ≠ StoreCall.admissionSave i) ∧
      ((processAdmission env db id body).1.calls = db.calls ++ pre ∨
        (processAdmission env db id body).1.calls = db.calls ++ pre ++ [.admissionSave id]) := by
  obtain ⟨pre, hno, hcalls⟩ := processAdmission_calls env db id body
  cases hs : acceptedStatus body.status with
  | none =>
    have h : processAdmission env db id body = (db, { code := 400, data := none }) := by
      simp [processAdmission, hs]
    refine ⟨found, pre, ?_, fun _ => rfl, fun _ => rfl, fun _ => rfl, hno, hcalls⟩
    rw [h]; exact hfound
  | some s =>
    rcases processAdmission_stored env db id body s found hs hfound with
      ⟨hfind, _, _⟩ | ⟨a, _, hfind, _, _, hcase⟩
    · exact ⟨found, pre, hfind, fun _ => rfl, fun _ => rfl, fun _ => rfl, hno, hcalls⟩
    · refine ⟨_, pre, hfind, ?_, ?_, ?_, hno, hcalls⟩
      · intro hf
        rw [(preSave_fields _ _ a).1]
        rcases hcase with ⟨rfl, _, _⟩ | ⟨_, _, st, _, rfl⟩ <;> simp [applyBody, hf]
      · intro hf
        rw [(preSave_fields _ _ a).2.1]
        rcases hcase with ⟨rfl, _, _⟩ | ⟨_, _, st, _, rfl⟩ <;> simp [applyBody, hf]
      · intro hf
        rw [(preSave_fields _ _ a).2.2]
        rcases hcase with ⟨rfl, _, _⟩ | ⟨_, _, st, _, rfl⟩ <;> simp [applyBody, hf]

/-- C16, amended, at a concrete input: the request with the empty remark and
the fee 0 on Jane's stored application with a remark on file. -/
theorem processAdmission_optional_fields_witness :
    findAdmission storedJaneRemarkedDb 1 = some (hydrate storedJaneRemarked) ∧
    clearingBody.remarks.truthy = false ∧
    ∃ (stored : Admission) (pre : List StoreCall),
      findAdmission (processAdmission schemaStore storedJaneRemarkedDb 1 clearingBody).1 1
        = some stored ∧
      (clearingBody.remarks.truthy = false →
        stored.remarks = (hydrate storedJaneRemarked).remarks) ∧
      (clearingBody.interviewDetails.truthy = false →
        stored.interviewDetails = (hydrate storedJaneRemarked).interviewDetails) ∧
      (clearingBody.admissionFee.truthy = false →
        stored.admissionFee = (hydrate storedJaneRemarked).admissionFee) ∧
      (∀ c ∈ pre, ∀ i, c ≠ StoreCall.admissionSave i) ∧
      ((processAdmission schemaStore storedJaneRemarkedDb 1 clearingBody).1.calls
          = storedJaneRemarkedDb.calls ++ pre ∨
        (processAdmission schemaStore storedJaneRemarkedDb 1 clearingBody).1.calls
          = storedJaneRemarkedDb.calls ++ pre ++ [.admissionSave 1]) :=
  ⟨rfl, rfl,
    processAdmission_optional_fields schemaStore storedJaneRemarkedDb 1 clearingBody
      (hydrate storedJaneRemarked) rfl⟩

/-! ## Failure of the student creation -/

/-- C19: in an 'approved' call on an application without a student, when the
student creation fails (reading `applicantDetails` throws, or the store
rejects the student document), the answer is 500; no account is removed:
the accounts after the call are those before it, followed by the account the
call created, if it created one; no student is created, and the stored
applications are exactly those before the call, so the application keeps its
previous status and its unset student reference. In particular, when the
applicant email matches no account and the account creation is accepted, the
new account stays in the store. -/
theorem processAdmission_no_rollback (env : Env) (db : Db) (id : Nat)
    (body : ProcessBody) (found : Admission)
    (hstatus : body.status = JsVal.str "approved")
    (hfound : findAdmission db id = some found)
    (hunlinked : found.student = none)
    (hfail : found.applicantDetails = none ∨ ∀ doc, env.studentCreateOk doc = false) :
    (processAdmission env db id body).2.code = 500 ∧
    ((processAdmission env db id body).1.users = db.users ∨
      ∃ u, (processAdmission env db id body).1.users = db.users ++ [u]) ∧
    (processAdmission env db id body).1.students = db.students ∧
    (processAdmission env db id body).1.admissions = db.admissions ∧
    findAdmission (processAdmission env db id body).1 id = some found ∧
    (∀ (e : String) (ad : ApplicantDetails),
      applicantEmail found = some e → (∀ u ∈ db.users, u.email ≠ e) →
      found.applicantDetails = some ad →
      env.userCreateOk (newUserInput ad e found.contactDetails) = true →
      (processAdmission env db id body).1.users
        = db.users ++ [createdUser db.nextId (newUserInput ad e found.contactDetails)]) := by
  have hs : acceptedStatus body.status = some "approved" :=
    acceptedStatus_eq_some _ _ (by decide) hstatus
  have husers := processAdmission_convert_users env db id body found hstatus hfound hunlinked
  have hprefix : (processAdmission env db id body).1.users = db.users ∨
      ∃ u, (processAdmission env db id body).1.users = db.users ++ [u] := by
    rw [husers]
    exact resolveUser_users env (db.logged (.admissionFindById id))
      (applyBody found "approved" body)
  have hcreated : ∀ (e : String) (ad : ApplicantDetails),
      applicantEmail found = some e → (∀ u ∈ db.users, u.email ≠ e) →
      found.applicantDetails = some ad →
      env.userCreateOk (newUserInput ad e found.contactDetails) = true →
      (processAdmission env db id body).1.users
        = db.users ++ [createdUser db.nextId (newUserInput ad e found.contactDetails)] := by
    intro e ad hemail hnew hdetails huser
    have hnone : findUserByEmail (db.logged (.admissionFindById id)) e = none := by
      rw [findUser_logged]
      unfold findUserByEmail
      rw [List.find?_eq_none]
      intro u hu
      simpa using hnew u hu
    rw [husers]
    rcases resolveUser_cases env (db.logged (.admissionFindById id))
        (applyBody found "approved" body) with
      ⟨he, _⟩ | ⟨e1, u1, he, hu1, _⟩ | ⟨e1, he, _, had, _⟩ | ⟨e1, ad1, he, _, had, hrej, _⟩ |
      ⟨e1, ad1, he, _, had, _, h1⟩ <;>
    rw [applicantEmail_applyBody, hemail] at he
    · simp at he
    · obtain rfl : e = e1 := Option.some.inj he
      rw [hnone] at hu1
      simp at hu1
    · have h2 : (applyBody found "approved" body).applicantDetails = some ad := hdetails
      rw [had] at h2
      simp at h2
    · obtain rfl : e = e1 := Option.some.inj he
      have h2 : (applyBody found "approved" body).applicantDetails = some ad := hdetails
      rw [had] at h2
      obtain rfl : ad1 = ad := Option.some.inj h2
      have h3 : env.userCreateOk (newUserInput ad1 e found.contactDetails) = false := hrej
      rw [huser] at h3
      simp at h3
    · obtain rfl : e = e1 := Option.some.inj he
      have h2 : (applyBody found "approved" body).applicantDetails = some ad := hdetails
      rw [had] at h2
      obtain rfl : ad1 = ad := Option.some.inj h2
      rw [h1]
      rfl
  rcases processAdmission_found_cases env db id body "approved" found hs hfound with
    ⟨hno, _⟩ | ⟨_, _, hnone, heq⟩ | ⟨_, _, ad, user, db1, had, _, hacc, _⟩
  · rcases hno with h | h
    · exact absurd rfl h
    · exact absurd hunlinked h
  · refine ⟨by rw [heq], hprefix, ?_, ?_, ?_, hcreated⟩
    · rw [heq]
      exact convert_none_students env _ _ hnone
    · rw [heq]
      exact convert_admissions env _ _
    · rw [heq]
      unfold findAdmission
      rw [convert_admissions]
      exact hfound
  · exfalso
    rcases hfail with h | h
    · rw [had] at h
      simp at h
    · rw [h] at hacc
      simp at hacc

/-- C19 at a concrete input: approving Jane's stored application on the store
with the repository's validators; the read of `applicantDetails` throws. -/
theorem processAdmission_no_rollback_witness :
    findAdmission storedJaneDb 1 = some (hydrate storedJane) ∧
    (hydrate storedJane).applicantDetails = none ∧
    (processAdmission schemaStore storedJaneDb 1 (statusOnly (JsVal.str "approved"))).2.code
      = 500 ∧
    findAdmission
      (processAdmission schemaStore storedJaneDb 1 (statusOnly (JsVal.str "approved"))).1 1
      = some (hydrate storedJane) :=
  have h := processAdmission_no_rollback schemaStore storedJaneDb 1
    (statusOnly (JsVal.str "approved")) (hydrate storedJane) rfl rfl rfl (Or.inl rfl)
  ⟨rfl, rfl, h.1, h.2.2.2.2.1⟩

/-! ## The declared statuses and the uniqueness of the number -/

/-- Under the `enum` of the schema's `status` path `createAdmission` stores
nothing: the status it gives the document, 'pending', is not declared. -/
theorem createAdmission_of_enum (env : Env) (courses : List Course) (db : Db)
    (body : CreateBody)
    (henum : ∀ a : Admission, env.admissionSaveOk a = true → a.status ∈ declaredStatuses) :
    (createAdmission env courses db body).1 = db ∧
    (createAdmission env courses db body).2.data = none := by
  unfold createAdmission
  cases hc : body.appliedCourse with
  | none => exact ⟨rfl, rfl⟩
  | some c =>
    cases hf : findCourse courses (some c) with
    | none => exact ⟨rfl, rfl⟩
    | some course =>
      simp only
      cases hacc : env.admissionSaveOk (newAdmission db.nextId c body) with
      | false => exact ⟨rfl, rfl⟩
      | true =>
        exfalso
        have := henum _ hacc
        simp [newAdmission, declaredStatuses] at this

/-- C20: on a store that applies the `enum` validator of the schema's `status`
path, the document a successful `createAdmission` or `processAdmission`
answers, which is the one it stored, has a declared status; and when every
stored application has a declared status before a `createAdmission` or a
`processAdmission` request, every stored application has one after it. -/
theorem stored_status_declared (env : Env) (courses : List Course) (db : Db) (id : Nat)
    (cbody : CreateBody) (pbody : ProcessBody)
    (henum : ∀ a : Admission, env.admissionSaveOk a = true → a.status ∈ declaredStatuses)
    (hdb : ∀ a ∈ db.admissions, a.status ∈ declaredStatuses) :
    (∀ stored, (createAdmission env courses db cbody).2.data = some stored →
      stored.status ∈ declaredStatuses) ∧
    (∀ stored, (processAdmission env db id pbody).2.data = some stored →
      stored.status ∈ declaredStatuses) ∧
    (∀ a ∈ (createAdmission env courses db cbody).1.admissions, a.status ∈ declaredStatuses) ∧
    (∀ a ∈ (processAdmission env db id pbody).1.admissions, a.status ∈ declaredStatuses) := by
  refine ⟨?_, ?_, ?_, ?_⟩
  · intro stored hdata
    unfold createAdmission at hdata
    cases hc : cbody.appliedCourse with
    | none => rw [hc] at hdata; simp at hdata
    | some c =>
      rw [hc] at hdata
      cases hf : findCourse courses (some c) with
      | none => rw [hf] at hdata; simp at hdata
      | some course =>
        rw [hf] at hdata
        simp only at hdata
        cases hacc : env.admissionSaveOk (newAdmission db.nextId c cbody) with
        | false => rw [hacc] at hdata; simp at hdata
        | true =>
          rw [hacc] at hdata
          simp only [if_true, Option.some.injEq] at hdata
          rw [← hdata, preSave_status]
          exact henum _ hacc
  · intro stored hdata
    cases hs : acceptedStatus pbody.status with
    | none =>
      have h : processAdmission env db id pbody = (db, { code := 400, data := none }) := by
        simp [processAdmission, hs]
      rw [h] at hdata
      simp at hdata
    | some s =>
      cases hfound : findAdmission db id with
      | none =>
        rw [processAdmission_eq_notFound env db id pbody s hs hfound] at hdata
        simp at hdata
      | some found =>
        rcases processAdmission_stored env db id pbody s found hs hfound with
          ⟨_, _, hresp⟩ | ⟨a, hacc, _, _, hresp, _⟩
        · rw [hresp] at hdata; simp at hdata
        · rw [hresp] at hdata
          simp only [Option.some.injEq] at hdata
          rw [← hdata, preSave_status]
          exact henum a hacc
  · intro a ha
    unfold createAdmission at ha
    cases hc : cbody.appliedCourse with
    | none => rw [hc] at ha; exact hdb a ha
    | some c =>
      rw [hc] at ha
      cases hf : findCourse courses (some c) with
      | none => rw [hf] at ha; exact hdb a ha
      | some course =>
        rw [hf] at ha
        simp only at ha
        cases hacc : env.admissionSaveOk (newAdmission db.nextId c cbody) with
        | false => rw [hacc] at ha; exact hdb a ha
        | true =>
          rw [hacc] at ha
          simp only [if_true, List.mem_append, List.mem_singleton] at ha
          rcases ha with ha | rfl
          · exact hdb a ha
          · rw [preSave_status]
            exact henum _ hacc
  · intro x hx
    cases hs : acceptedStatus pbody.status with
    | none =>
      have h : processAdmission env db id pbody = (db, { code := 400, data := none }) := by
        simp [processAdmission, hs]
      rw [h] at hx
      exact hdb x hx
    | some s =>
      cases hfound : findAdmission db id with
      | none =>
        rw [processAdmission_eq_notFound env db id pbody s hs hfound] at hx
        exact hdb x hx
      | some found =>
        rcases processAdmission_stored env db id pbody s found hs hfound with
          ⟨_, hadm, _⟩ | ⟨a, hacc, _, hadm, _, _⟩
        · rw [hadm] at hx
          exact hdb x hx
        · rw [hadm] at hx
          simp only [List.mem_map] at hx
          obtain ⟨y, hy, hxy⟩ := hx
          by_cases hc : (y._id == id) = true
          · rw [if_pos hc] at hxy
            rw [← hxy, preSave_status]
            exact henum a hacc
          · rw [if_neg hc] at hxy
            rw [← hxy]
            exact hdb y hy

theorem schemaStore_enum :
    ∀ a : Admission, schemaStore.admissionSaveOk a = true → a.status ∈ declaredStatuses := by
  intro a h
  simp only [schemaStore, Bool.and_eq_true, decide_eq_true_eq] at h
  exact h.1

/-- C20 at a concrete input: the store with the repository's validators,
holding Jane's stored application with status 'Pending', a creation request
and a request to reject the application. -/
theorem stored_status_declared_witness :
    (∀ a : Admission, schemaStore.admissionSaveOk a = true → a.status ∈ declaredStatuses) ∧
    (∀ a ∈ storedJaneDb.admissions, a.status ∈ declaredStatuses) ∧
    (∀ a ∈ (createAdmission schemaStore [course101] storedJaneDb (janeCreateBody 101)).1.admissions,
      a.status ∈ declaredStatuses) ∧
    (∀ a ∈ (processAdmission schemaStore storedJaneDb 1
        (statusOnly (JsVal.str "rejected"))).1.admissions,
      a.status ∈ declaredStatuses) :=
  have h := stored_status_declared schemaStore [course101] storedJaneDb 1 (janeCreateBody 101)
    (statusOnly (JsVal.str "rejected")) schemaStore_enum (by decide)
  ⟨schemaStore_enum, by decide, h.2.2.1, h.2.2.2⟩

theorem deleteAdmission_sublist (wenv : WriteEnv) (db : Db) (id : Nat) :
    (deleteAdmission wenv db id).1.admissions.Sublist db.admissions := by
  unfold deleteAdmission
  cases findAdmission db id with
  | none => exact List.Sublist.refl _
  | some found =>
    simp only
    split
    · exact List.Sublist.refl _
    · split
      · exact List.filter_sublist _
      · exact List.Sublist.refl _

/-- On a store that applies the `enum` of the schema's `status` path, the
applications stored after a sequence of creations and deletions are among
those stored before it, in their order. -/
theorem runOps_sublist (env : Env) (wenv : WriteEnv) (courses : List Course)
    (henum : ∀ a : Admission, env.admissionSaveOk a = true → a.status ∈ declaredStatuses)
    (ops : List AdmissionOp) :
    ∀ db : Db, (runOps env wenv courses db ops).admissions.Sublist db.admissions := by
  induction ops with
  | nil => intro db; exact List.Sublist.refl _
  | cons op rest ih =>
    intro db
    have hstep : (applyOp env wenv courses db op).admissions.Sublist db.admissions := by
      cases op with
      | create body =>
        show (createAdmission env courses db body).1.admissions.Sublist db.admissions
        rw [(createAdmission_of_enum env courses db body henum).1]
      | remove id => exact deleteAdmission_sublist wenv db id
    exact (ih (applyOp env wenv courses db op)).trans hstep

/-- C14: on a store that applies the `enum` validator of the schema's `status`
path, and starting from stored applications with pairwise different
application numbers, after every sequence of creations and deletions the
stored numbers are pairwise different; a creation request made then stores no
application, and the number of an application it would answer differs from
every stored number. -/
theorem applicationNumbers_stay_distinct (env : Env) (wenv : WriteEnv)
    (courses : List Course) (db : Db) (ops : List AdmissionOp) (body : CreateBody)
    (henum : ∀ a : Admission, env.admissionSaveOk a = true → a.status ∈ declaredStatuses)
    (hdistinct : (db.admissions.map (fun a => a.applicationNumber)).Nodup) :
    ((runOps env wenv courses db ops).admissions.map (fun a => a.applicationNumber)).Nodup ∧
    (createAdmission env courses (runOps env wenv courses db ops) body).1
      = runOps env wenv courses db ops ∧
    (∀ saved, (createAdmission env courses (runOps env wenv courses db ops) body).2.data
        = some saved →
      ∀ a ∈ (runOps env wenv courses db ops).admissions,
        a.applicationNumber ≠ saved.applicationNumber) := by
  refine ⟨?_, (createAdmission_of_enum env courses _ body henum).1, ?_⟩
  · exact hdistinct.sublist ((runOps_sublist env wenv courses henum ops db).map _)
  · intro saved hsaved
    rw [(createAdmission_of_enum env courses _ body henum).2] at hsaved
    simp at hsaved

/-- C14 at a concrete input: two creation requests and the deletion of Jane's
stored application, on the store with the repository's validators. -/
theorem applicationNumbers_stay_distinct_witness :
    (∀ a : Admission, schemaStore.admissionSaveOk a = true → a.status ∈ declaredStatuses) ∧
    (storedJaneDb.admissions.map (fun a => a.applicationNumber)).Nodup ∧
    ((runOps schemaStore writeAll [course101] storedJaneDb
        [.create (janeCreateBody 101), .remove 1, .create (janeCreateBody 101)]).admissions.map
      (fun a => a.applicationNumber)).Nodup :=
  ⟨schemaStore_enum, by decide,
    (applicationNumbers_stay_distinct schemaStore writeAll [course101] storedJaneDb
      [.create (janeCreateBody 101), .remove 1, .create (janeCreateBody 101)]
      (janeCreateBody 101) schemaStore_enum (by decide)).1⟩

/-! ## Ids that are no ObjectId -/

/-- C9 as stated fails: a request with a valid status whose id is no ObjectId,
and so matches no stored application, is answered 500, not 404. -/
theorem processAdmissionRequest_malformed_counterexample :
    (processAdmissionRequest schemaStore storedJaneDb (.malformed "abc")
      (statusOnly (JsVal.str "approved"))).2.code = 500 ∧
    (processAdmissionRequest schemaStore storedJaneDb (.malformed "abc")
      (statusOnly (JsVal.str "approved"))).2.code ≠ 404 ∧
    (processAdmissionRequest schemaStore storedJaneDb (.malformed "abc")
      (statusOnly (JsVal.str "approved"))).1 = storedJaneDb := by
  refine ⟨rfl, ?_, rfl⟩
  show (500 : Nat) ≠ 404
  decide

/-- C9, amended: with an accepted status and an id that matches no stored
application, the answer is 404 when the id is a well-formed ObjectId and 500
when it is not, and in both cases the application, student and account
collections are unchanged. -/
theorem processAdmissionRequest_unmatched (env : Env) (db : Db) (rid : RequestId)
    (body : ProcessBody) (s : String) (hs : s ∈ acceptedStatuses)
    (hbody : body.status = JsVal.str s)
    (hid : ∀ a ∈ db.admissions, rid ≠ RequestId.objectId a._id) :
    (processAdmissionRequest env db rid body).2.code
      = (match rid with
        | .objectId _ => 404
        | .malformed _ => 500) ∧
    (processAdmissionRequest env db rid body).1.admissions = db.admissions ∧
    (processAdmissionRequest env db rid body).1.students = db.students ∧
    (processAdmissionRequest env db rid body).1.users = db.users := by
  cases rid with
  | objectId id =>
    have hne : ∀ a ∈ db.admissions, a._id ≠ id := by
      intro a ha h
      exact hid a ha (by rw [h])
    show (processAdmission env db id body).2.code = 404 ∧ _
    exact processAdmission_not_found env db id body s hs hbody hne
  | malformed text =>
    have h : processAdmissionRequest env db (.malformed text) body
        = (db, { code := 500, data := none }) := by
      simp only [processAdmissionRequest, acceptedStatus_eq_some _ s hs hbody]
    rw [h]
    exact ⟨rfl, rfl, rfl, rfl⟩

/-- C9, amended, at concrete inputs: on the store holding Jane's stored
application under the id 1, a request for the id 2 and a request for the id
'abc'. -/
theorem processAdmissionRequest_unmatched_witness :
    ((processAdmissionRequest schemaStore storedJaneDb (.objectId 2)
        (statusOnly (JsVal.str "rejected"))).2.code = 404 ∧
      (processAdmissionRequest schemaStore storedJaneDb (.objectId 2)
        (statusOnly (JsVal.str "rejected"))).1.admissions = storedJaneDb.admissions) ∧
    ((processAdmissionRequest schemaStore storedJaneDb (.malformed "abc")
        (statusOnly (JsVal.str "rejected"))).2.code = 500 ∧
      (processAdmissionRequest schemaStore storedJaneDb (.malformed "abc")
        (statusOnly (JsVal.str "rejected"))).1.admissions = storedJaneDb.admissions) :=
  have h1 := processAdmissionRequest_unmatched schemaStore storedJaneDb (.objectId 2)
    (statusOnly (JsVal.str "rejected")) "rejected" (by decide) rfl (by decide)
  have h2 := processAdmissionRequest_unmatched schemaStore storedJaneDb (.malformed "abc")
    (statusOnly (JsVal.str "rejected")) "rejected" (by decide) rfl (by decide)
  ⟨⟨h1.1, h1.2.1⟩, ⟨h2.1, h2.2.1⟩⟩

/-- C18 as stated fails: a creation and an update that name a course no store
holds are answered 400, and a creation and an update whose `appliedCourse` is
no ObjectId are answered 500; none is answered 404. -/
theorem missing_course_counterexample :
    (∀ env : Env,
      (createAdmissionRequest env [course101] storedJaneDb (some (.objectId 999))
        (janeCreateBody 999)).2.code = 400 ∧
      (createAdmissionRequest env [course101] storedJaneDb (some (.malformed "CS101"))
        (janeCreateBody 999)).2.code = 500) ∧
    (∀ wenv : WriteEnv,
      (updateAdmissionRequest wenv [course101] storedJaneDb (.objectId 1) (some (.objectId 999))
        emptyUpdate).2.code = 400 ∧
      (updateAdmissionRequest wenv [course101] storedJaneDb (.objectId 1)
        (some (.malformed "CS101")) emptyUpdate).2.code = 500) := by
  refine ⟨fun env => ⟨rfl, rfl⟩, fun wenv => ⟨rfl, rfl⟩⟩

/-- C18, amended: a `createAdmission` request whose `appliedCourse` is absent
or is a well-formed id that matches no stored course is answered 400, and one
whose `appliedCourse` is no ObjectId is answered 500; an `updateAdmission`
request for a stored application that carries such an `appliedCourse` is
answered 400 for a well-formed id and 500 otherwise; in all these cases the
store is unchanged. -/
theorem missing_course_answers (env : Env) (wenv : WriteEnv) (courses : List Course)
    (db : Db) (id : Nat) (course : RequestId) (found : Admission)
    (cbody : CreateBody) (ubody : UpdateBody)
    (hfound : findAdmission db id = some found)
    (hcourse : ∀ x ∈ courses, course ≠ RequestId.objectId x._id) :
    createAdmissionRequest env courses db none cbody = (db, { code := 400, data := none }) ∧
    createAdmissionRequest env courses db (some course) cbody
      = (db, { code := (match course with
                | .objectId _ => 400
                | .malformed _ => 500), data := none }) ∧
    updateAdmissionRequest wenv courses db (.objectId id) (some course) ubody
      = (db, { code := (match course with
                | .objectId _ => 400
                | .malformed _ => 500), data := none }) := by
  refine ⟨?_, ?_, ?_⟩
  · simp [createAdmissionRequest, createAdmission]
  · cases course with
    | malformed text => rfl
    | objectId c =>
      have h1 : findCourse courses (some c) = none := by
        apply findCourse_eq_none
        intro x hx h
        exact hcourse x hx (by rw [Option.some.inj h])
      simp only [createAdmissionRequest, createAdmission, h1]
  · cases course with
    | malformed text =>
      simp only [updateAdmissionRequest, hfound]
    | objectId c =>
      have h1 : findCourse courses (some c) = none := by
        apply findCourse_eq_none
        intro x hx h
        exact hcourse x hx (by rw [Option.some.inj h])
      simp [updateAdmissionRequest, updateAdmission, hfound, h1]

/-- C18, amended, at concrete inputs: the course 999 and the course 'CS101',
which is no ObjectId, on the store holding Jane's stored application and the
course 101. -/
theorem missing_course_answers_witness :
    findAdmission storedJaneDb 1 = some (hydrate storedJane) ∧
    createAdmissionRequest schemaStore [course101] storedJaneDb (some (.objectId 999))
      (janeCreateBody 999) = (storedJaneDb, { code := 400, data := none }) ∧
    updateAdmissionRequest writeAll [course101] storedJaneDb (.objectId 1)
      (some (.malformed "CS101")) emptyUpdate = (storedJaneDb, { code := 500, data := none }) :=
  have h1 := missing_course_answers schemaStore writeAll [course101] storedJaneDb 1
    (.objectId 999) (hydrate storedJane) (janeCreateBody 999) emptyUpdate rfl (by decide)
  have h2 := missing_course_answers schemaStore writeAll [course101] storedJaneDb 1
    (.malformed "CS101") (hydrate storedJane) (janeCreateBody 999) emptyUpdate rfl (by decide)
  ⟨rfl, h1.2.1, h2.2.2⟩

/-! ## The guard of `getStudentFeeSummary` -/

/-- The guard of line 238 answers 403 only for a record that is linked to a
user: for a record without a linked user no request is answered 403. -/
theorem getStudentFeeSummary_unlinked_code (user : AuthUser) (s : FeeStudent)
    (rest : List FeeStudent) (courses : List FeeCourse) (fees : List FeeRecord)
    (hunlinked : s.user = none) :
    (getStudentFeeSummary user (s :: rest) courses fees s._id).1 ≠ 403 := by
  unfold getStudentFeeSummary
  simp only [List.find?_cons, beq_self_eq_true, hunlinked, Option.isSome_none, Bool.and_false,
    Bool.false_and, Bool.false_eq_true, if_false]
  cases s.personalDetails <;> simp

/-- C22 fails on the code: a user with role 'student' who asks for the fee
summary of a student record with no linked user passes the guard of line 238;
the handler goes on, and on the record the Student model hands over, which has
no `personalDetails`, it throws while building the answer: the response is
500, not 403. The same request for a record linked to another user is
answered 403. -/
theorem getStudentFeeSummary_unlinked_not_forbidden :
    otherStudentUser.role = "student" ∧
    storedStudent7.user = none ∧
    getStudentFeeSummary otherStudentUser [storedStudent7] [pricedCourse] [janePaidFee] 7
      = (500, none) ∧
    linkedStudent7.user = some 4 ∧
    otherStudentUser.id = 55 ∧
    getStudentFeeSummary otherStudentUser [linkedStudent7] [pricedCourse] [janePaidFee] 7
      = (403, none) := by
  decide

/-! ## The occupancy counts of the Hostel hook -/

/-- C27: the hook on a hostel saved with modified rooms keeps the occupants of
every room; afterwards the `occupiedCount` of each room is the number of its
occupants with status 'Active', and the `occupiedCount` of the hostel is the
sum of the `occupiedCount` of its rooms. -/
theorem hostelPreSave_counts (h : Hostel) :
    (hostelPreSave true h).rooms.map (fun room => room.occupants)
      = h.rooms.map (fun room => room.occupants) ∧
    (∀ room ∈ (hostelPreSave true h).rooms,
      room.occupiedCount = room.occupants.countP (fun o => o.status == "Active")) ∧
    (hostelPreSave true h).occupiedCount
      = ((hostelPreSave true h).rooms.map (fun room => room.occupiedCount)).sum ∧
    (hostelPreSave true h).occupiedCount
      = (h.rooms.map
          (fun room => room.occupants.countP (fun o => o.status == "Active"))).sum := by
  refine ⟨?_, ?_, ?_, ?_⟩
  · simp only [hostelPreSave, if_true, List.map_map]
    rfl
  · intro room hroom
    simp only [hostelPreSave, if_true, List.mem_map] at hroom
    obtain ⟨r, _, rfl⟩ := hroom
    show (r.occupants.filter (fun o => o.status == "Active")).length
      = r.occupants.countP (fun o => o.status == "Active")
    rw [List.countP_eq_length_filter]
  · simp only [hostelPreSave, if_true, List.map_map]
    rfl
  · simp only [hostelPreSave, if_true]
    congr 1
    apply List.map_congr_left
    intro r _
    show (r.occupants.filter (fun o => o.status == "Active")).length = _
    rw [List.countP_eq_length_filter]

end Erp
